import Mathlib

/-!
Shallow embedding of the Monkey evaluation core
(`src/evaluator/evaluator.go` and `src/object/environment.go`).

The repository ships two copies of the evaluator; the richer one (strings,
arrays, hashes, builtins, found after the `Environment` code in
`src/object/environment.go`) subsumes the older copy in
`src/evaluator/evaluator.go`, agrees with it on every shared function, and is
the one whose line numbers the specification cites.  We embed the richer copy.

Modelling conventions, used throughout:
* Go interface values of type `object.Object` may be `nil` (e.g. the result of
  evaluating a `let` statement, an empty block, or an `if` with an empty
  branch); we model them as `Option Object` (`none` = Go `nil`).
* Go runtime panics (calling `.Type()` on a nil interface, indexing
  `args[paramIdx]` past the end of the argument slice, integer division by
  zero) are modelled by an explicit `Res.panicked` outcome: they abort the
  whole evaluation and produce no language-level value.
* Mutable `*object.Environment` values shared between closures are modelled by
  an explicit heap (`Heap`, a list of frames) threaded through evaluation;
  an environment pointer becomes an index into that heap.
* The evaluator is total via a fuel parameter; every recursive call consumes
  one unit.  `Res.timeout` (fuel exhausted) has no Go counterpart: for every
  terminating Go evaluation a large enough fuel avoids it.
* Go's `int64` arithmetic wraps; `wrap64` reduces every arithmetic result into
  `[-2^63, 2^63)`.
-/

namespace Monkey

/-! ### AST

Modelled from the spec: the `ast` package is not under `src/`; §6 of the spec
fixes the node shapes exactly ("program, block, let/return/expression
statements; integer/boolean/string/array/hash/function literals;
prefix/infix/if/identifier/call/index expressions").  A block is a list of
statements, a program is a top-level list of statements.  Hash-literal pairs
are kept in source order as §4.3 prescribes (the Go AST stores them in a map
whose iteration order Go does not define). -/

mutual

inductive Expr where
  | IntegerLiteral (value : Int)
  | BooleanLiteral (value : Bool)
  | StringLiteral (value : String)
  | PrefixExpression (operator : String) (right : Expr)
  | InfixExpression (operator : String) (left : Expr) (right : Expr)
  | IfExpression (condition : Expr) (consequence : List Stmt)
      (alternative : Option (List Stmt))
  | Identifier (value : String)
  | FunctionLiteral (parameters : List String) (body : List Stmt)
  | CallExpression (function : Expr) (arguments : List Expr)
  | ArrayLiteral (elements : List Expr)
  | IndexExpression (left : Expr) (index : Expr)
  | HashLiteral (pairs : List (Expr × Expr))
  deriving Repr

inductive Stmt where
  | ExpressionStatement (expression : Expr)
  | ReturnStatement (returnValue : Expr)
  | LetStatement (name : String) (value : Expr)
  deriving Repr

end

/-! ### Object model

Modelled from the spec: the `object` package (other than `Environment`) is not
under `src/`; §3 of the spec fixes the closed set of value kinds.  A
`Function` stores its parameter names, body block and a reference (heap index)
to its captured environment.  A `Builtin` is identified by its registry name
(the registry itself is an opaque external collaborator, §6).  `Array`
elements and `Hash` pair components have Go type `object.Object` and may
therefore be Go `nil`. -/

/-- Modelled from the spec (§3 "Hash key"): the kind tag plus the
discriminating content; two values derive equal hash keys iff they have the
same kind and the same underlying content, which this representation realises
exactly. -/
inductive HashKey where
  | ofInteger (value : Int)
  | ofBoolean (value : Bool)
  | ofString (value : String)
  deriving Repr, DecidableEq

/-- Alias for the host string type, usable where the `Object.String`
constructor name shadows it. -/
abbrev GoString := String

/-! Pointer identity.  Go's `==`/`!=` fallback in `evalInfixExpression`
compares interface values, i.e. pointers; aliased operands (e.g.
`let a = [1]; a == a`, both sides the same `*object.Array`) compare equal
while distinct allocations compare unequal.  To model this faithfully, every
kind whose pointer identity is observable through that fallback carries an
allocation id (`id : Nat`), stamped from a counter threaded through the
evaluator at the point where the Go code executes `&object.X{...}`.
Identity is observable exactly for ReturnValue, Function, Array and Hash:
Boolean/Null are process-wide singletons and Builtins per-name registry
singletons (state determines the pointer), Integer/Integer and String/String
pairs are dispatched by value before the fallback, and Error operands are
filtered out by `isError` before any comparison — so those kinds carry no
id. -/

inductive Object where
  | Integer (value : Int)
  | Boolean (value : Bool)
  | String (value : GoString)
  | Null
  | ReturnValue (id : Nat) (value : Option Object)
  | Error (message : GoString)
  | Function (id : Nat) (parameters : List GoString) (body : List Stmt) (env : Nat)
  | Builtin (name : GoString)
  | Array (id : Nat) (elements : List (Option Object))
  | Hash (id : Nat) (pairs : List (HashKey × Option Object × Option Object))
  deriving Repr

/-- A Go `object.Object` interface value, which may be `nil`. -/
abbrev GoVal := Option Object

/-- `Object.Type()` — the kind tag used for dispatch and error messages
(modelled from the spec §4.1; the concrete tag spellings follow the error
messages quoted in the spec, e.g. "type mismatch: INTEGER + BOOLEAN"). -/
def Object.type : Object → GoString
  | .Integer _ => "INTEGER"
  | .Boolean _ => "BOOLEAN"
  | .String _ => "STRING"
  | .Null => "NULL"
  | .ReturnValue _ _ => "RETURN_VALUE"
  | .Error _ => "ERROR"
  | .Function _ _ _ _ => "FUNCTION"
  | .Builtin _ => "BUILTIN"
  | .Array _ _ => "ARRAY"
  | .Hash _ _ => "HASH"

/-- Hash-key derivation: defined exactly for Integer, Boolean and String
(the `object.Hashable` interface); `none` for every other kind.
Modelled from the spec §3. -/
def hashKeyOf : Object → Option HashKey
  | .Integer n => some (.ofInteger n)
  | .Boolean b => some (.ofBoolean b)
  | .String s => some (.ofString s)
  | _ => none

/-- Go `int64` wrap-around: reduce into `[-2^63, 2^63)`. -/
def wrap64 (n : Int) : Int := (n + 2 ^ 63) % 2 ^ 64 - 2 ^ 63

/-! ### Outcomes

`Res α`: the outcome of running a piece of Go code that would produce an `α`.
`timeout` is fuel exhaustion (a model artefact), `panicked` is a Go runtime
panic (nil-interface dereference, slice index out of range, division by
zero). -/

inductive Res (α : Type) where
  | timeout
  | panicked
  | ok (val : α)
  deriving Repr

def Res.bind {α β : Type} : Res α → (α → Res β) → Res β
  | .timeout, _ => .timeout
  | .panicked, _ => .panicked
  | .ok a, f => f a

/-- Go `fmt.Sprintf`-built error construction (`newError`). -/
def newError (message : String) : Object := .Error message

/-! ### Environments

`src/object/environment.go`: an `Environment` is a `map[string]Object` plus an
optional pointer to an outer environment.  The mutable pointer graph is
modelled as a heap: a list of frames addressed by index.  Frame stores are
association lists with map (overwrite) semantics. -/

def alistSet {κ α : Type} [BEq κ] : List (κ × α) → κ → α → List (κ × α)
  | [], k, v => [(k, v)]
  | (k', v') :: rest, k, v =>
    if k' == k then (k, v) :: rest else (k', v') :: alistSet rest k v

def alistGet {κ α : Type} [BEq κ] : List (κ × α) → κ → Option α
  | [], _ => none
  | (k', v') :: rest, k => if k' == k then some v' else alistGet rest k

structure Frame where
  store : List (String × GoVal)
  outer : Option Nat
  deriving Repr

abbrev Heap := List Frame

/-- `object.NewEnvironment()` creating the fresh global scope: the initial
heap holds one frame with no outer environment; its reference is `0`. -/
def NewEnvironment : Heap × Nat := ([⟨[], none⟩], 0)

/-- `object.NewEnclosedEnvironment(outer)`: allocate a fresh empty frame
chained to `outer`; returns the extended heap and the new reference. -/
def NewEnclosedEnvironment (h : Heap) (outer : Nat) : Heap × Nat :=
  (h ++ [⟨[], some outer⟩], h.length)

/-- `Environment.Get`, one chain step at a time.  The extra fuel argument
bounds the walk along `outer` links (the Go code recurses on a pointer chain;
on every heap the evaluator builds, `outer` links point to strictly smaller
indices, so fuel `h.length` never runs out).  A dangling reference or
exhausted fuel yields "not found", both unreachable on evaluator-built
heaps. -/
def envGetAux (h : Heap) : Nat → Nat → String → Option GoVal
  | 0, _, _ => none
  | fuel + 1, ref, key =>
    match h[ref]? with
    | none => none
    | some frame =>
      match alistGet frame.store key with
      | some v => some v
      | none =>
        match frame.outer with
        | some o => envGetAux h fuel o key
        | none => none

/-- `Environment.Get(key) -> (Object, bool)`; `none` = not found in the entire
chain. -/
def Environment.Get (h : Heap) (ref : Nat) (key : String) : Option GoVal :=
  envGetAux h h.length ref key

/-- `Environment.Set(key, value)`: create or overwrite the binding in the
frame `ref` only.  (Go cannot hold a dangling environment pointer; on an
out-of-range reference `List.set` is a no-op, a case the evaluator never
produces.) -/
def Environment.Set (h : Heap) (ref : Nat) (key : String) (v : GoVal) : Heap :=
  match h[ref]? with
  | none => h
  | some frame => h.set ref ⟨alistSet frame.store key v, frame.outer⟩

/-! ### Pure evaluator helpers (`src/object/environment.go`, second part) -/

/-- The canonical singletons `TRUE`/`FALSE` (`nativeBoolToBooleanObject`). -/
def nativeBoolToBooleanObject (input : Bool) : Object := .Boolean input

/-- `isError`: nil is not an error; otherwise compare the kind tag. -/
def isError : GoVal → Bool
  | some (.Error _) => true
  | _ => false

/-- `isTruthy`: pointer comparison against the `NULL`/`TRUE`/`FALSE`
singletons; everything else — including Go `nil` and Integer 0 — hits the
`default` branch and is truthy. -/
def isTruthy : GoVal → Bool
  | some .Null => false
  | some (.Boolean b) => b
  | _ => true

/-- Go interface pointer equality `left == right` as used in the `==`/`!=`
fallback of `evalInfixExpression`.  Interfaces holding different dynamic
types are never equal; Booleans and Null are process-wide singletons (pointer
equality coincides with state equality) and builtins are singletons per
registry name; ReturnValue/Function/Array/Hash pointers are compared through
their allocation ids, so aliased operands (`let a = [1]; a == a`) compare
equal and distinct allocations compare unequal.  The remaining same-kind
pairs (Integer/Integer, String/String, Error/Error) never reach this
fallback: the first two are dispatched by value beforehand and Error operands
are filtered by `isError`. -/
def ptrEq : GoVal → GoVal → Bool
  | none, none => true
  | some (.Boolean a), some (.Boolean b) => a == b
  | some .Null, some .Null => true
  | some (.Builtin a), some (.Builtin b) => a == b
  | some (.ReturnValue i _), some (.ReturnValue j _) => i == j
  | some (.Function i _ _ _), some (.Function j _ _ _) => i == j
  | some (.Array i _), some (.Array j _) => i == j
  | some (.Hash i _), some (.Hash j _) => i == j
  | _, _ => false

/-- `evalBangOperatorExpression`: pointer-matches the three singletons, with
`default` (every other object, and Go nil) mapped to `FALSE`. -/
def evalBangOperatorExpression (right : GoVal) : Object :=
  match right with
  | some (.Boolean true) => nativeBoolToBooleanObject false
  | some (.Boolean false) => nativeBoolToBooleanObject true
  | some .Null => nativeBoolToBooleanObject true
  | _ => nativeBoolToBooleanObject false

/-- `evalMinusPrefixOperatorExpression`; `right.Type()` on Go nil panics. -/
def evalMinusPrefixOperatorExpression (right : GoVal) : Res GoVal :=
  match right with
  | none => .panicked
  | some (.Integer value) => .ok (some (.Integer (wrap64 (-value))))
  | some o => .ok (some (newError ("unknown operator: -" ++ o.type)))

/-- `evalPrefixExpression`; the unknown-operator message calls
`right.Type()`, panicking on Go nil. -/
def evalPrefixExpression (operator : String) (right : GoVal) : Res GoVal :=
  if operator == "!" then .ok (some (evalBangOperatorExpression right))
  else if operator == "-" then evalMinusPrefixOperatorExpression right
  else
    match right with
    | none => .panicked
    | some o => .ok (some (newError ("unknown operator: " ++ operator ++ o.type)))

/-- `evalIntegerInfixExpression`: `int64` arithmetic (wrapping) and
comparisons; Go division by zero panics. -/
def evalIntegerInfixExpression (operator : String) (leftValue rightValue : Int) :
    Res GoVal :=
  if operator == "+" then .ok (some (.Integer (wrap64 (leftValue + rightValue))))
  else if operator == "-" then .ok (some (.Integer (wrap64 (leftValue - rightValue))))
  else if operator == "*" then .ok (some (.Integer (wrap64 (leftValue * rightValue))))
  else if operator == "/" then
    if rightValue == 0 then .panicked
    else .ok (some (.Integer (wrap64 (Int.tdiv leftValue rightValue))))
  else if operator == "<" then .ok (some (nativeBoolToBooleanObject (leftValue < rightValue)))
  else if operator == ">" then .ok (some (nativeBoolToBooleanObject (leftValue > rightValue)))
  else if operator == "==" then .ok (some (nativeBoolToBooleanObject (leftValue == rightValue)))
  else if operator == "!=" then .ok (some (nativeBoolToBooleanObject (leftValue != rightValue)))
  else .ok (some (newError ("unknown operator: INTEGER " ++ operator ++ " INTEGER")))

/-- `evalStringInfixExpression`: `+` concatenates, `==`/`!=` compare by
content, anything else is an unknown operator. -/
def evalStringInfixExpression (operator : String) (leftValue rightValue : String) :
    Res GoVal :=
  if operator == "+" then .ok (some (.String (leftValue ++ rightValue)))
  else if operator == "==" then .ok (some (nativeBoolToBooleanObject (leftValue == rightValue)))
  else if operator == "!=" then .ok (some (nativeBoolToBooleanObject (leftValue != rightValue)))
  else .ok (some (newError ("unknown operator: STRING " ++ operator ++ " STRING")))

/-- `evalInfixExpression`.  The Go `switch` evaluates its case conditions in
order with short-circuiting `&&`; each `.Type()` call on a nil interface
panics, which dictates exactly where a Go-nil operand crashes and where it
silently reaches the pointer-equality fallback. -/
def evalInfixExpression (operator : String) (left right : GoVal) : Res GoVal :=
  match left with
  | none => .panicked
  | some l =>
    if l.type == "INTEGER" then
      match right with
      | none => .panicked
      | some (.Integer rv) =>
        match l with
        | .Integer lv => evalIntegerInfixExpression operator lv rv
        | _ => .panicked
      | some r =>
        if operator == "==" then .ok (some (nativeBoolToBooleanObject (ptrEq left right)))
        else if operator == "!=" then .ok (some (nativeBoolToBooleanObject (!ptrEq left right)))
        else .ok (some (newError ("type mismatch: " ++ l.type ++ " " ++ operator ++ " " ++ r.type)))
    else if l.type == "STRING" then
      match right with
      | none => .panicked
      | some (.String rv) =>
        match l with
        | .String lv => evalStringInfixExpression operator lv rv
        | _ => .panicked
      | some r =>
        if operator == "==" then .ok (some (nativeBoolToBooleanObject (ptrEq left right)))
        else if operator == "!=" then .ok (some (nativeBoolToBooleanObject (!ptrEq left right)))
        else .ok (some (newError ("type mismatch: " ++ l.type ++ " " ++ operator ++ " " ++ r.type)))
    else if operator == "==" then .ok (some (nativeBoolToBooleanObject (ptrEq left right)))
    else if operator == "!=" then .ok (some (nativeBoolToBooleanObject (!ptrEq left right)))
    else
      match right with
      | none => .panicked
      | some r =>
        if l.type != r.type then
          .ok (some (newError ("type mismatch: " ++ l.type ++ " " ++ operator ++ " " ++ r.type)))
        else
          .ok (some (newError ("unknown operator: " ++ l.type ++ " " ++ operator ++ " " ++ r.type)))

/-- `unwrapReturnValue`: strip exactly one `ReturnValue` wrapper. -/
def unwrapReturnValue : GoVal → GoVal
  | some (.ReturnValue _ value) => value
  | obj => obj

/-- `evalArrayIndexExpression`: the dispatcher guarantees a proper Array and a
proper Integer index; out of range (including negative) is Null, never a
fault. -/
def evalArrayIndexExpression (elements : List (Option Object)) (idx : Int) : GoVal :=
  if idx < 0 ∨ idx > (elements.length : Int) - 1 then some .Null
  else
    match elements[idx.toNat]? with
    | some v => v
    | none => none

/-- `evalHashIndexExpression`: a non-key-derivable key faults; the error
message calls `key.Type()`, panicking when the key is Go nil. -/
def evalHashIndexExpression (pairs : List (HashKey × Option Object × Option Object))
    (key : GoVal) : Res GoVal :=
  match key with
  | none => .panicked
  | some k =>
    match hashKeyOf k with
    | none => .ok (some (newError ("unusable as hash key: " ++ k.type)))
    | some hk =>
      match alistGet pairs hk with
      | none => .ok (some .Null)
      | some pair => .ok pair.2

/-- `evalIndexExpression`: the dispatching `switch`, with its short-circuiting
case conditions (`left.Type()` on Go nil panics; so does `index.Type()` when
`left` is an Array). -/
def evalIndexExpression (left index : GoVal) : Res GoVal :=
  match left with
  | none => .panicked
  | some (.Array _ elements) =>
    match index with
    | none => .panicked
    | some (.Integer idx) => .ok (evalArrayIndexExpression elements idx)
    | some _ => .ok (some (newError "index operator not supported: ARRAY"))
  | some (.Hash _ pairs) => evalHashIndexExpression pairs index
  | some l => .ok (some (newError ("index operator not supported: " ++ l.type)))

/-- The parameter-binding loop of `extendFunctionEnv`:
`for paramIdx, param := range fn.Parameters { env.Set(param.Value, args[paramIdx]) }`.
The loop never compares the two lengths; when the arguments run out,
`args[paramIdx]` is a Go slice index out of range — a panic.  Surplus
arguments are never read. -/
def setParams (h : Heap) (ref : Nat) : List String → List GoVal → Res Heap
  | [], _ => .ok h
  | _ :: _, [] => .panicked
  | p :: ps, a :: rest => setParams (Environment.Set h ref p a) ref ps rest

/-- The builtin registry: an opaque external collaborator (§6 of the spec),
"a fixed, named registry of Builtin Values"; each builtin accepts a sequence
of values and returns exactly one value.  A builtin also receives and returns
the allocation counter, so that any value it allocates (e.g. the array built
by `push`) carries a fresh pointer identity. -/
abbrev Builtins := String → Option (List GoVal → Nat → GoVal × Nat)

/-- The inline signal check of `evalStatements`:
`result != nil && (rt == RETURN_VALUE_OBJ || rt == ERROR_OBJ)`. -/
def isReturnOrError : GoVal → Bool
  | some (.ReturnValue _ _) => true
  | some (.Error _) => true
  | _ => false

/-! ### The recursive evaluator (`Eval` and its mutually recursive helpers)

Each function consumes one unit of fuel per call; `env` is the heap reference
of the current environment. -/

section EvalDefs

variable (bs : Builtins)

mutual

/-- `Eval` restricted to expression nodes (the Go `Eval` dispatches on the
dynamic node type; statement nodes are in `evalStmt`).  `n` is the allocation
counter stamping the pointer identity of every `&object.X{...}` allocation
whose identity is observable (ReturnValue/Function/Array/Hash; see the
`Object` comment). -/
def evalExpr : Nat → Expr → Nat → Heap → Nat → Res (GoVal × Heap × Nat)
  | 0, _, _, _, _ => .timeout
  | fuel + 1, e, env, h, n =>
    match e with
    | .IntegerLiteral value => .ok (some (.Integer value), h, n)
    | .BooleanLiteral value => .ok (some (nativeBoolToBooleanObject value), h, n)
    | .StringLiteral value => .ok (some (.String value), h, n)
    | .PrefixExpression operator right =>
      (evalExpr fuel right env h n).bind fun rh =>
        if isError rh.1 then .ok rh
        else (evalPrefixExpression operator rh.1).bind fun v => .ok (v, rh.2)
    | .InfixExpression operator left right =>
      (evalExpr fuel left env h n).bind fun lh =>
        if isError lh.1 then .ok lh
        else
          (evalExpr fuel right env lh.2.1 lh.2.2).bind fun rh =>
            if isError rh.1 then .ok rh
            else (evalInfixExpression operator lh.1 rh.1).bind fun v => .ok (v, rh.2)
    | .IfExpression condition consequence alternative =>
      (evalExpr fuel condition env h n).bind fun ch =>
        if isError ch.1 then .ok ch
        else if isTruthy ch.1 then evalBlock fuel consequence env ch.2.1 ch.2.2
        else
          match alternative with
          | some alt => evalBlock fuel alt env ch.2.1 ch.2.2
          | none => .ok (some .Null, ch.2)
    | .Identifier value =>
      match Environment.Get h env value with
      | some v => .ok (v, h, n)
      | none =>
        match bs value with
        | some _ => .ok (some (.Builtin value), h, n)
        | none => .ok (some (newError ("identifier not found: " ++ value)), h, n)
    | .FunctionLiteral parameters body =>
      .ok (some (.Function n parameters body env), h, n + 1)
    | .CallExpression function arguments =>
      (evalExpr fuel function env h n).bind fun fh =>
        if isError fh.1 then .ok fh
        else
          (evalExpressions fuel arguments [] env fh.2.1 fh.2.2).bind fun ah =>
            match ah.1 with
            | [a] =>
              if isError a then .ok (a, ah.2)
              else applyFunction fuel fh.1 [a] ah.2.1 ah.2.2
            | args => applyFunction fuel fh.1 args ah.2.1 ah.2.2
    | .ArrayLiteral elementExprs =>
      (evalExpressions fuel elementExprs [] env h n).bind fun eh =>
        match eh.1 with
        | [a] =>
          if isError a then .ok (a, eh.2)
          else .ok (some (.Array eh.2.2 [a]), eh.2.1, eh.2.2 + 1)
        | elements => .ok (some (.Array eh.2.2 elements), eh.2.1, eh.2.2 + 1)
    | .IndexExpression left index =>
      (evalExpr fuel left env h n).bind fun lh =>
        if isError lh.1 then .ok lh
        else
          (evalExpr fuel index env lh.2.1 lh.2.2).bind fun ih =>
            if isError ih.1 then .ok ih
            else (evalIndexExpression lh.1 ih.1).bind fun v => .ok (v, ih.2)
    | .HashLiteral pairs => evalHashPairs fuel pairs [] n env h (n + 1)
termination_by structural fuel => fuel

/-- `Eval` restricted to statement nodes (expression statement, `return`,
`let`; the `let` case falls out of the Go `switch` and returns nil). -/
def evalStmt : Nat → Stmt → Nat → Heap → Nat → Res (GoVal × Heap × Nat)
  | 0, _, _, _, _ => .timeout
  | fuel + 1, s, env, h, n =>
    match s with
    | .ExpressionStatement expression => evalExpr fuel expression env h n
    | .ReturnStatement returnValue =>
      (evalExpr fuel returnValue env h n).bind fun vh =>
        if isError vh.1 then .ok vh
        else .ok (some (.ReturnValue vh.2.2 vh.1), vh.2.1, vh.2.2 + 1)
    | .LetStatement name value =>
      (evalExpr fuel value env h n).bind fun vh =>
        if isError vh.1 then .ok vh
        else .ok (none, Environment.Set vh.2.1 env name vh.1, vh.2.2)
termination_by structural fuel => fuel

/-- `evalProgram`: top-level statement loop — Errors stop and are returned,
a ReturnValue stops and is unwrapped, otherwise the last result (Go nil
when no statement produced one) is returned. -/
def evalProgram : Nat → List Stmt → Nat → Heap → Nat → Res (GoVal × Heap × Nat)
  | 0, _, _, _, _ => .timeout
  | _ + 1, [], _, h, n => .ok (none, h, n)
  | fuel + 1, s :: rest, env, h, n =>
    (evalStmt fuel s env h n).bind fun rh =>
      match rh.1 with
      | some (.ReturnValue _ value) => .ok (value, rh.2)
      | some (.Error message) => .ok (some (.Error message), rh.2)
      | result =>
        match rest with
        | [] => .ok (result, rh.2)
        | _ :: _ => evalProgram fuel rest env rh.2.1 rh.2.2
termination_by structural fuel => fuel

/-- `evalStatements`: block statement loop — a non-nil result whose kind tag
is RETURN_VALUE or ERROR stops the loop and is returned unmodified. -/
def evalBlock : Nat → List Stmt → Nat → Heap → Nat → Res (GoVal × Heap × Nat)
  | 0, _, _, _, _ => .timeout
  | _ + 1, [], _, h, n => .ok (none, h, n)
  | fuel + 1, s :: rest, env, h, n =>
    (evalStmt fuel s env h n).bind fun rh =>
      if isReturnOrError rh.1 then .ok rh
      else
        match rest with
        | [] => .ok rh
        | _ :: _ => evalBlock fuel rest env rh.2.1 rh.2.2
termination_by structural fuel => fuel

/-- `evalExpressions`: left-to-right evaluation of call arguments and array
elements, accumulating into `result` exactly like the Go loop; the first
Error makes the whole function return the one-element slice holding just that
Error, discarding everything accumulated so far. -/
def evalExpressions : Nat → List Expr → List GoVal → Nat → Heap → Nat →
    Res (List GoVal × Heap × Nat)
  | 0, _, _, _, _, _ => .timeout
  | _ + 1, [], result, _, h, n => .ok (result, h, n)
  | fuel + 1, e :: rest, result, env, h, n =>
    (evalExpr fuel e env h n).bind fun vh =>
      if isError vh.1 then .ok ([vh.1], vh.2)
      else evalExpressions fuel rest (result ++ [vh.1]) env vh.2.1 vh.2.2
termination_by structural fuel => fuel

/-- `applyFunction`: a Function gets a fresh environment enclosed by its
captured environment (`extendFunctionEnv`), positional parameter binding, its
body evaluated there and the result unwrapped; a Builtin is invoked on the
argument slice (the registry threads the allocation counter for any values it
allocates); anything else (including Go nil, whose `.Type()` panics) is
"not a function". -/
def applyFunction : Nat → GoVal → List GoVal → Heap → Nat → Res (GoVal × Heap × Nat)
  | 0, _, _, _, _ => .timeout
  | fuel + 1, fn, args, h, n =>
    match fn with
    | some (.Function _ parameters body envRef) =>
      (setParams (NewEnclosedEnvironment h envRef).1
          (NewEnclosedEnvironment h envRef).2 parameters args).bind fun h2 =>
        (evalBlock fuel body (NewEnclosedEnvironment h envRef).2 h2 n).bind fun eh =>
          .ok (unwrapReturnValue eh.1, eh.2)
    | some (.Builtin name) =>
      match bs name with
      | some fimpl => .ok ((fimpl args n).1, h, (fimpl args n).2)
      | none => .ok (none, h, n)
    | some o => .ok (some (newError ("not a function: " ++ o.type)), h, n)
    | none => .panicked
termination_by structural fuel => fuel

/-- `evalHashLiteral`: the Go code allocates the `&object.Hash{...}` before
the pair loop, so the hash's identity (`hid`) is reserved up front; then the
pairs are processed in source order — the key is evaluated and checked (Error
propagation, then key-derivability — the fault message calls
`keyObject.Type()`, panicking on Go nil) before its value is evaluated; the
pair (original key, value) is stored under the derived key, overwriting any
earlier entry. -/
def evalHashPairs : Nat → List (Expr × Expr) →
    List (HashKey × Option Object × Option Object) → Nat → Nat → Heap → Nat →
    Res (GoVal × Heap × Nat)
  | 0, _, _, _, _, _, _ => .timeout
  | _ + 1, [], acc, hid, _, h, n => .ok (some (.Hash hid acc), h, n)
  | fuel + 1, (k, v) :: rest, acc, hid, env, h, n =>
    (evalExpr fuel k env h n).bind fun kh =>
      if isError kh.1 then .ok kh
      else
        match kh.1 with
        | none => .panicked
        | some keyObject =>
          match hashKeyOf keyObject with
          | none => .ok (some (newError ("unusable as hash key: " ++ keyObject.type)), kh.2)
          | some hashedKey =>
            (evalExpr fuel v env kh.2.1 kh.2.2).bind fun vh =>
              if isError vh.1 then .ok vh
              else
                evalHashPairs fuel rest
                  (alistSet acc hashedKey (some keyObject, vh.1)) hid env vh.2.1 vh.2.2
termination_by structural fuel => fuel

end

end EvalDefs

/-- The host-facing entry `Eval(program, env)` run on a fresh global
environment (`object.NewEnvironment()`) and allocation counter 0, keeping
only the produced value. -/
def run (bs : Builtins) (fuel : Nat) (program : List Stmt) : Res GoVal :=
  (evalProgram bs fuel program NewEnvironment.2 NewEnvironment.1 0).bind fun rh =>
    .ok rh.1


/-- The empty builtin registry (the registry contents are opaque external
collaborators; programs below do not call builtins). -/
def noBuiltins : Builtins := fun _ => none

/-! ### Signal freedom

ReturnValue and Error are signal variants (§3 of the spec): the predicates
below say that a value contains no signal variant anywhere — not as itself,
not as an Array element, not inside a Hash pair — and that a heap stores no
such value in any environment frame. -/

mutual

def Object.signalFree : Object → Bool
  | .ReturnValue _ _ => false
  | .Error _ => false
  | .Array _ elements => goValListSignalFree elements
  | .Hash _ pairs => hashPairsSignalFree pairs
  | _ => true

def goValSignalFree : Option Object → Bool
  | none => true
  | some o => o.signalFree

def goValListSignalFree : List (Option Object) → Bool
  | [] => true
  | v :: rest => goValSignalFree v && goValListSignalFree rest

def hashPairsSignalFree : List (HashKey × Option Object × Option Object) → Bool
  | [] => true
  | (_, kv, vv) :: rest =>
    goValSignalFree kv && goValSignalFree vv && hashPairsSignalFree rest

end

def storeSignalFree : List (GoString × GoVal) → Bool
  | [] => true
  | (_, v) :: rest => goValSignalFree v && storeSignalFree rest

def heapSignalFree : Heap → Bool
  | [] => true
  | f :: rest => storeSignalFree f.store && heapSignalFree rest

/-! The Error half of the invariant is the provable one (a ReturnValue can
leak into stores through an if-expression in value position — see the C3
counterexample): the predicates below say a value contains no Error variant
anywhere inside (a ReturnValue wrapper is allowed and looked through). -/

mutual

def Object.errorFree : Object → Bool
  | .Error _ => false
  | .ReturnValue _ v => goValErrorFree v
  | .Array _ elements => goValListErrorFree elements
  | .Hash _ pairs => hashPairsErrorFree pairs
  | _ => true

def goValErrorFree : Option Object → Bool
  | none => true
  | some o => o.errorFree

def goValListErrorFree : List (Option Object) → Bool
  | [] => true
  | v :: rest => goValErrorFree v && goValListErrorFree rest

def hashPairsErrorFree : List (HashKey × Option Object × Option Object) → Bool
  | [] => true
  | (_, kv, vv) :: rest =>
    goValErrorFree kv && goValErrorFree vv && hashPairsErrorFree rest

end

def storeErrorFree : List (GoString × GoVal) → Bool
  | [] => true
  | (_, v) :: rest => goValErrorFree v && storeErrorFree rest

def heapErrorFree : Heap → Bool
  | [] => true
  | f :: rest => storeErrorFree f.store && heapErrorFree rest

/-- Shape of every evaluation result: an Error signal at the top, or a value
with no Error anywhere inside. -/
def resOk (r : GoVal) : Bool := isError r || goValErrorFree r

/-- Shape of an `evalExpressions` result: either every element is Error-free
or it is the one-element error slice. -/
def exprsResOk (vs : List GoVal) : Bool :=
  goValListErrorFree vs ||
    (match vs with
     | [v] => isError v
     | _ => false)

/-- A registry is well behaved when each builtin, applied to Error-free
arguments, returns either an Error or an Error-free value (§6: "a Builtin
accepts a sequence of Values and returns exactly one Value, which may be an
Error"). -/
def BuiltinsOk (bs : Builtins) : Prop :=
  ∀ name f, bs name = some f →
    ∀ args n, goValListErrorFree args = true → resOk (f args n).1 = true

/-- `guardB bs` behaves exactly like `bs` on Error-free argument lists and
deviates on any argument list containing an Error; evaluation being unchanged
under this replacement expresses that no builtin is ever passed an Error
argument. -/
def guardB (bs : Builtins) : Builtins := fun name =>
  (bs name).map fun f args n =>
    if goValListErrorFree args then f args n
    else (some (newError "builtin applied to an Error argument"), n)

/-- Well-formed heap: every `outer` link points to a strictly earlier frame
(true of every heap the evaluator builds, since `NewEnclosedEnvironment`
chains a fresh frame to an existing one). -/
def heapWF (h : Heap) : Prop :=
  ∀ (i : Nat) (f : Frame), h[i]? = some f → ∀ o, f.outer = some o → o < i

/-! ### Concrete programs used by the claims -/

/-- `let adder = fn(x) { fn(y) { x + y } }; let add5 = adder(5); add5(n);` -/
def adderProgram (n : Int) : List Stmt :=
  [ .LetStatement "adder" (.FunctionLiteral ["x"]
      [.ExpressionStatement (.FunctionLiteral ["y"]
        [.ExpressionStatement (.InfixExpression "+" (.Identifier "x") (.Identifier "y"))])]),
    .LetStatement "add5" (.CallExpression (.Identifier "adder") [.IntegerLiteral 5]),
    .ExpressionStatement (.CallExpression (.Identifier "add5") [.IntegerLiteral n]) ]

/-- Same, but calling `add5(3);` first and then `add5(7);` — the final result
is that of the second call. -/
def adderProgramTwice : List Stmt :=
  [ .LetStatement "adder" (.FunctionLiteral ["x"]
      [.ExpressionStatement (.FunctionLiteral ["y"]
        [.ExpressionStatement (.InfixExpression "+" (.Identifier "x") (.Identifier "y"))])]),
    .LetStatement "add5" (.CallExpression (.Identifier "adder") [.IntegerLiteral 5]),
    .ExpressionStatement (.CallExpression (.Identifier "add5") [.IntegerLiteral 3]),
    .ExpressionStatement (.CallExpression (.Identifier "add5") [.IntegerLiteral 7]) ]

/-- `[1, fn(){}(), 3]` — the middle element calls a function literal with an
empty body, which evaluates to Go nil, not to an Error. -/
def arrayNilCallProgram : List Stmt :=
  [ .ExpressionStatement (.ArrayLiteral
      [ .IntegerLiteral 1,
        .CallExpression (.FunctionLiteral [] []) [],
        .IntegerLiteral 3 ]) ]

/-- `let a = [1]; a == a;` — both operands of `==` resolve to the same array
allocation, so the interface pointer-equality fallback compares equal. -/
def aliasEqProgram : List Stmt :=
  [ .LetStatement "a" (.ArrayLiteral [.IntegerLiteral 1]),
    .ExpressionStatement (.InfixExpression "==" (.Identifier "a") (.Identifier "a")) ]

/-- `[1] == [1];` — two distinct array allocations with equal contents:
pointer equality compares unequal. -/
def freshEqProgram : List Stmt :=
  [ .ExpressionStatement (.InfixExpression "==" (.ArrayLiteral [.IntegerLiteral 1])
      (.ArrayLiteral [.IntegerLiteral 1])) ]

/-- `[1, 5 + true, 3]` — the middle element faults with a type mismatch. -/
def arrayTypeMismatchProgram : List Stmt :=
  [ .ExpressionStatement (.ArrayLiteral
      [ .IntegerLiteral 1,
        .InfixExpression "+" (.IntegerLiteral 5) (.BooleanLiteral true),
        .IntegerLiteral 3 ]) ]

/-- `{ (if (true) {}) : 1 }` — the key evaluates to Go nil. -/
def hashNilKeyProgram : List Stmt :=
  [ .ExpressionStatement (.HashLiteral
      [ (.IfExpression (.BooleanLiteral true) [] none, .IntegerLiteral 1) ]) ]

/-- `{1: 1}[if (true) {}]` — a hash indexed by an expression that evaluates to
Go nil (an if whose taken branch is empty). -/
def hashNilIndexProgram : List Stmt :=
  [ .ExpressionStatement (.IndexExpression
      (.HashLiteral [ (.IntegerLiteral 1, .IntegerLiteral 1) ])
      (.IfExpression (.BooleanLiteral true) [] none)) ]

/-- `let x = if (true) { return 5; };` — the if-expression in value position
produces a ReturnValue signal, which the let binding stores. -/
def letLeakProgram : List Stmt :=
  [ .LetStatement "x" (.IfExpression (.BooleanLiteral true)
      [.ReturnStatement (.IntegerLiteral 5)] none) ]

/-- `[if (true) { return 5; }, 2]` — an Array literal whose first element is
a ReturnValue signal. -/
def arrayLeakProgram : List Stmt :=
  [ .ExpressionStatement (.ArrayLiteral
      [ .IfExpression (.BooleanLiteral true) [.ReturnStatement (.IntegerLiteral 5)] none,
        .IntegerLiteral 2 ]) ]

/-- `probe(if (true) { return 5; })` — run against a registry whose `probe`
builtin echoes its argument slice back as an Array, exhibiting exactly what
was passed to it. -/
def probeLeakProgram : List Stmt :=
  [ .ExpressionStatement (.CallExpression (.Identifier "probe")
      [ .IfExpression (.BooleanLiteral true) [.ReturnStatement (.IntegerLiteral 5)] none ]) ]

/-- A registry with a single builtin `probe` that returns its argument slice
as an Array value. -/
def probeBuiltins : Builtins := fun name =>
  if name == "probe" then some (fun args n => (some (.Array n args), n + 1)) else none

/-! ## Claim theorems -/

@[simp] theorem Res.bind_ok {α β : Type} (a : α) (f : α → Res β) :
    Res.bind (Res.ok a) f = f a := rfl

@[simp] theorem Res.bind_timeout {α β : Type} (f : α → Res β) :
    Res.bind Res.timeout f = Res.timeout := rfl

@[simp] theorem Res.bind_panicked {α β : Type} (f : α → Res β) :
    Res.bind Res.panicked f = Res.panicked := rfl


/-- C9: the Null singleton and the false Boolean singleton are falsy and
every other value — including Integer 0, all non-Boolean kinds, and even a
Go-nil operand — is truthy; prefix `!` never faults regardless of operand
kind and always yields a canonical Boolean singleton, true exactly on falsy
operands; hence `!!5` evaluates to the canonical true Boolean, not
Integer 5. -/
theorem claim_C9_truthiness_bang :
    (isTruthy (some .Null) = false ∧ isTruthy (some (.Boolean false)) = false) ∧
    (∀ v : Object, v ≠ .Null → v ≠ .Boolean false → isTruthy (some v) = true) ∧
    (∀ r : GoVal, evalPrefixExpression "!" r =
        .ok (some (nativeBoolToBooleanObject (!(isTruthy r))))) ∧
    (∀ (bs : Builtins) (fuel env : Nat) (h : Heap) (n : Nat),
        evalExpr bs (fuel + 3)
            (.PrefixExpression "!" (.PrefixExpression "!" (.IntegerLiteral 5))) env h n =
          .ok (some (.Boolean true), h, n)) := by
  refine ⟨⟨rfl, rfl⟩, ?_, ?_, fun bs fuel env h n => rfl⟩
  · intro v h1 h2
    cases v <;> try rfl
    · rename_i b; cases b
      · exact absurd rfl h2
      · rfl
    · exact absurd rfl h1
  · intro r
    rcases r with _ | o
    · rfl
    · cases o <;> try rfl
      rename_i b; cases b <;> rfl

/-- C9 witness: Integer 0 is truthy (an instance of the quantified truthiness
clause with its two hypotheses discharged at `Integer 0`). -/
theorem claim_C9_witness : isTruthy (some (.Integer 0)) = true :=
  claim_C9_truthiness_bang.2.1 (.Integer 0) (by simp) (by simp)

/-- C10 (implicit claim): applying a Function never compares argument count
with parameter count: with fewer arguments than parameters the positional
binding loop runs past the end of the argument slice — in this total
embedding that out-of-range branch yields `panicked`, and no language-level
Error value is produced — while surplus arguments are silently ignored (the
application only depends on the first `parameters.length` arguments). -/
theorem claim_C10_unchecked_arity :
    (∀ (bs : Builtins) (fuel i : Nat) (params : List GoString) (body : List Stmt)
        (envRef : Nat) (args : List GoVal) (h : Heap) (n : Nat),
        args.length < params.length →
        applyFunction bs (fuel + 1) (some (.Function i params body envRef)) args h n =
          .panicked) ∧
    (∀ (bs : Builtins) (fuel i : Nat) (params : List GoString) (body : List Stmt)
        (envRef : Nat) (args : List GoVal) (h : Heap) (n : Nat),
        params.length ≤ args.length →
        applyFunction bs (fuel + 1) (some (.Function i params body envRef)) args h n =
          applyFunction bs (fuel + 1) (some (.Function i params body envRef))
            (args.take params.length) h n) := by
  have short : ∀ (params : List GoString) (args : List GoVal) (h : Heap) (ref : Nat),
      args.length < params.length → setParams h ref params args = .panicked := by
    intro params
    induction params with
    | nil => intro args h ref hlt; simp at hlt
    | cons p ps ih =>
      intro args h ref hlt
      cases args with
      | nil => rfl
      | cons a rest =>
        simp only [setParams]
        exact ih rest _ ref (by simpa using Nat.lt_of_succ_lt_succ hlt)
  have surplus : ∀ (params : List GoString) (args : List GoVal) (h : Heap) (ref : Nat),
      params.length ≤ args.length →
      setParams h ref params args = setParams h ref params (args.take params.length) := by
    intro params
    induction params with
    | nil => intro args h ref _; cases args <;> rfl
    | cons p ps ih =>
      intro args h ref hle
      cases args with
      | nil => simp at hle
      | cons a rest =>
        simp only [setParams, List.take]
        exact ih rest _ ref (by simpa using Nat.le_of_succ_le_succ hle)
  constructor
  · intro bs fuel i params body envRef args h n hlt
    simp only [applyFunction, short params args _ _ hlt, Res.bind_panicked]
  · intro bs fuel i params body envRef args h n hle
    simp only [applyFunction]
    rw [surplus params args _ _ hle]

/-- C10 witness: `fn(x, y) { }` applied to one argument panics; `fn(x) { }`
applied to two arguments behaves exactly as when applied to the first
alone. -/
theorem claim_C10_witness :
    applyFunction noBuiltins 1 (some (.Function 0 ["x", "y"] [] 0))
        [some (.Integer 1)] [⟨[], none⟩] 1 = .panicked ∧
    applyFunction noBuiltins 1 (some (.Function 0 ["x"] [] 0))
        [some (.Integer 1), some (.Integer 2)] [⟨[], none⟩] 1 =
      applyFunction noBuiltins 1 (some (.Function 0 ["x"] [] 0))
        [some (.Integer 1)] [⟨[], none⟩] 1 :=
  ⟨claim_C10_unchecked_arity.1 noBuiltins 0 0 ["x", "y"] [] 0 [some (.Integer 1)]
      [⟨[], none⟩] 1 (by decide),
   claim_C10_unchecked_arity.2 noBuiltins 0 0 ["x"] [] 0
      [some (.Integer 1), some (.Integer 2)] [⟨[], none⟩] 1 (by decide)⟩

/-- C7 counterexample: the claim's Hash clause is unrestricted in the index
kind, but `{1: 1}[if (true) {}]` — whose index expression evaluates to Go
nil — does not fault with "unusable as hash key": the code builds that
message by calling `key.Type()` on the nil interface and panics instead. -/
theorem claim_C7_counterexample :
    run noBuiltins 50 hashNilIndexProgram = .panicked ∧
    run noBuiltins 50 hashNilIndexProgram ≠
      .ok (some (.Error "unusable as hash key: NULL")) := by
  have h1 : run noBuiltins 50 hashNilIndexProgram = .panicked := rfl
  refine ⟨h1, ?_⟩
  intro hcon
  rw [h1] at hcon
  simp at hcon

/-- C7 (amended): index semantics on non-Error operands — Array with Integer
index returns the element exactly when `0 ≤ index ≤ len - 1` and Null
otherwise (never a fault); Hash indexing with a proper (non-nil) index faults
on a non-key-derivable index, yields Null for an absent key, and the stored
value for a present key; any other proper left kind is "index operator not
supported: <type>"; but a Go-nil operand in the positions whose `.Type()` the
code calls crashes the interpreter instead — a nil index into an Array or a
Hash, or a nil left operand, is a runtime panic, not an Error (see the
counterexample). -/
theorem claim_C7_index_semantics :
    (∀ (i : Nat) (elements : List GoVal) (idx : Int) (v : GoVal),
        0 ≤ idx → idx ≤ (elements.length : Int) - 1 →
        elements[idx.toNat]? = some v →
        evalIndexExpression (some (.Array i elements)) (some (.Integer idx)) = .ok v) ∧
    (∀ (i : Nat) (elements : List GoVal) (idx : Int),
        idx < 0 ∨ (elements.length : Int) - 1 < idx →
        evalIndexExpression (some (.Array i elements)) (some (.Integer idx)) =
          .ok (some .Null)) ∧
    (∀ (i : Nat) (pairs : List (HashKey × GoVal × GoVal)) (k : Object),
        hashKeyOf k = none →
        evalIndexExpression (some (.Hash i pairs)) (some k) =
          .ok (some (.Error ("unusable as hash key: " ++ k.type)))) ∧
    (∀ (i : Nat) (pairs : List (HashKey × GoVal × GoVal)) (k : Object) (hk : HashKey),
        hashKeyOf k = some hk → alistGet pairs hk = none →
        evalIndexExpression (some (.Hash i pairs)) (some k) = .ok (some .Null)) ∧
    (∀ (i : Nat) (pairs : List (HashKey × GoVal × GoVal)) (k : Object) (hk : HashKey)
        (p : GoVal × GoVal),
        hashKeyOf k = some hk → alistGet pairs hk = some p →
        evalIndexExpression (some (.Hash i pairs)) (some k) = .ok p.2) ∧
    (∀ (l : Object) (index : GoVal), l.type ≠ "ARRAY" → l.type ≠ "HASH" →
        evalIndexExpression (some l) index =
          .ok (some (.Error ("index operator not supported: " ++ l.type)))) ∧
    (∀ (i : Nat) (pairs : List (HashKey × GoVal × GoVal)),
        evalIndexExpression (some (.Hash i pairs)) none = .panicked) ∧
    (∀ (i : Nat) (elements : List GoVal),
        evalIndexExpression (some (.Array i elements)) none = .panicked) ∧
    (∀ index : GoVal, evalIndexExpression none index = .panicked) := by
  refine ⟨?_, ?_, ?_, ?_, ?_, ?_, fun i pairs => rfl, fun i elements => rfl,
    fun index => rfl⟩
  · intro i elements idx v h0 h1 hv
    simp only [evalIndexExpression, evalArrayIndexExpression]
    rw [if_neg (by omega)]
    simp [hv]
  · intro i elements idx hout
    simp only [evalIndexExpression, evalArrayIndexExpression]
    rw [if_pos (by omega)]
  · intro i pairs k hk
    cases k <;> simp_all [evalIndexExpression, evalHashIndexExpression, hashKeyOf, Object.type, newError]
  · intro i pairs k hk h1 h2
    cases k <;> simp_all [evalIndexExpression, evalHashIndexExpression, hashKeyOf]
  · intro i pairs k hk p h1 h2
    cases k <;> simp_all [evalIndexExpression, evalHashIndexExpression, hashKeyOf]
  · intro l index h1 h2
    cases l <;> simp_all [evalIndexExpression, Object.type, newError]

/-- C7 witness: `[1,2,3][1]` is Integer 2, `[1,2,3][-1]` is Null,
`{1:2}[true]`-style lookups behave as stated. -/
theorem claim_C7_witness :
    evalIndexExpression (some (.Array 0 [some (.Integer 1), some (.Integer 2), some (.Integer 3)]))
        (some (.Integer 1)) = .ok (some (.Integer 2)) ∧
    evalIndexExpression (some (.Array 0 [some (.Integer 1), some (.Integer 2), some (.Integer 3)]))
        (some (.Integer (-1))) = .ok (some .Null) ∧
    evalIndexExpression (some (.Hash 0 [(.ofInteger 1, some (.Integer 1), some (.Integer 2))]))
        (some (.Integer 1)) = .ok (some (.Integer 2)) :=
  ⟨claim_C7_index_semantics.1 0 _ 1 (some (.Integer 2)) (by decide) (by decide) rfl,
   claim_C7_index_semantics.2.1 0 _ (-1) (by decide),
   claim_C7_index_semantics.2.2.2.2.1 0 _ (.Integer 1) (.ofInteger 1)
      (some (.Integer 1), some (.Integer 2)) rfl rfl⟩

/-- C4: infix dispatch on two non-Error (proper) operands — two Integers use
arithmetic and comparison by value (division stated for a non-zero divisor;
a zero divisor is a Go runtime panic, outside this claim); two Strings:
`+` concatenates, `==`/`!=` compare by content; `==`/`!=` on any other kind
combination compare by interface pointer identity (allocation identity for
ReturnValue/Function/Array/Hash, singleton identity for Boolean/Null/Builtin)
— on mismatched kinds necessarily yielding false/true respectively — and
never fault, so `let a = [1]; a == a` is true (aliased allocation) while
`[1] == [1]` is false (distinct allocations); any other operator on two
differing kinds faults with "type mismatch: <L> <op> <R>", and on two
matching kinds lacking that operator with "unknown operator: <L> <op> <R>". -/
theorem claim_C4_infix_dispatch :
    (∀ a b : Int,
        evalInfixExpression "+" (some (.Integer a)) (some (.Integer b)) =
          .ok (some (.Integer (wrap64 (a + b)))) ∧
        evalInfixExpression "-" (some (.Integer a)) (some (.Integer b)) =
          .ok (some (.Integer (wrap64 (a - b)))) ∧
        evalInfixExpression "*" (some (.Integer a)) (some (.Integer b)) =
          .ok (some (.Integer (wrap64 (a * b)))) ∧
        (b ≠ 0 →
          evalInfixExpression "/" (some (.Integer a)) (some (.Integer b)) =
            .ok (some (.Integer (wrap64 (Int.tdiv a b))))) ∧
        evalInfixExpression "<" (some (.Integer a)) (some (.Integer b)) =
          .ok (some (nativeBoolToBooleanObject (a < b))) ∧
        evalInfixExpression ">" (some (.Integer a)) (some (.Integer b)) =
          .ok (some (nativeBoolToBooleanObject (a > b))) ∧
        evalInfixExpression "==" (some (.Integer a)) (some (.Integer b)) =
          .ok (some (nativeBoolToBooleanObject (a == b))) ∧
        evalInfixExpression "!=" (some (.Integer a)) (some (.Integer b)) =
          .ok (some (nativeBoolToBooleanObject (a != b)))) ∧
    (∀ (a b : Int) (op : GoString),
        op ∉ (["+", "-", "*", "/", "<", ">", "==", "!="] : List GoString) →
        evalInfixExpression op (some (.Integer a)) (some (.Integer b)) =
          .ok (some (.Error ("unknown operator: INTEGER " ++ op ++ " INTEGER")))) ∧
    (∀ s t : GoString,
        evalInfixExpression "+" (some (.String s)) (some (.String t)) =
          .ok (some (.String (s ++ t))) ∧
        evalInfixExpression "==" (some (.String s)) (some (.String t)) =
          .ok (some (nativeBoolToBooleanObject (s == t))) ∧
        evalInfixExpression "!=" (some (.String s)) (some (.String t)) =
          .ok (some (nativeBoolToBooleanObject (s != t)))) ∧
    (∀ (s t : GoString) (op : GoString),
        op ∉ (["+", "==", "!="] : List GoString) →
        evalInfixExpression op (some (.String s)) (some (.String t)) =
          .ok (some (.Error ("unknown operator: STRING " ++ op ++ " STRING")))) ∧
    (∀ l r : Object,
        ¬(l.type = "INTEGER" ∧ r.type = "INTEGER") →
        ¬(l.type = "STRING" ∧ r.type = "STRING") →
        evalInfixExpression "==" (some l) (some r) =
          .ok (some (nativeBoolToBooleanObject (ptrEq (some l) (some r)))) ∧
        evalInfixExpression "!=" (some l) (some r) =
          .ok (some (nativeBoolToBooleanObject (!ptrEq (some l) (some r)))) ∧
        (l.type ≠ r.type → ptrEq (some l) (some r) = false)) ∧
    (∀ (l r : Object) (op : GoString),
        op ≠ "==" → op ≠ "!=" →
        ¬(l.type = "INTEGER" ∧ r.type = "INTEGER") →
        ¬(l.type = "STRING" ∧ r.type = "STRING") →
        l.type ≠ r.type →
        evalInfixExpression op (some l) (some r) =
          .ok (some (.Error ("type mismatch: " ++ l.type ++ " " ++ op ++ " " ++ r.type)))) ∧
    (∀ (l r : Object) (op : GoString),
        op ≠ "==" → op ≠ "!=" →
        l.type = r.type → l.type ≠ "INTEGER" → l.type ≠ "STRING" →
        evalInfixExpression op (some l) (some r) =
          .ok (some (.Error ("unknown operator: " ++ l.type ++ " " ++ op ++ " " ++ r.type)))) ∧
    run noBuiltins 50 aliasEqProgram = .ok (some (.Boolean true)) ∧
    run noBuiltins 50 freshEqProgram = .ok (some (.Boolean false)) := by
  refine ⟨?_, ?_, ?_, ?_, ?_, ?_, ?_, rfl, rfl⟩
  · intro a b
    refine ⟨rfl, rfl, rfl, fun hb => ?_, rfl, rfl, rfl, rfl⟩
    simp [evalInfixExpression, Object.type, evalIntegerInfixExpression, hb]
  · intro a b op hop
    simp only [List.mem_cons, List.not_mem_nil, or_false, not_or] at hop
    obtain ⟨h1, h2, h3, h4, h5, h6, h7, h8⟩ := hop
    simp [evalInfixExpression, Object.type, evalIntegerInfixExpression, newError,
      h1, h2, h3, h4, h5, h6, h7, h8]
  · intro s t
    exact ⟨rfl, rfl, rfl⟩
  · intro s t op hop
    simp only [List.mem_cons, List.not_mem_nil, or_false, not_or] at hop
    obtain ⟨h1, h2, h3⟩ := hop
    simp [evalInfixExpression, Object.type, evalStringInfixExpression, newError,
      h1, h2, h3]
  · intro l r hil his
    refine ⟨?_, ?_, ?_⟩
    · cases l <;> cases r <;> simp_all [evalInfixExpression, Object.type, ptrEq]
    · cases l <;> cases r <;> simp_all [evalInfixExpression, Object.type, ptrEq]
    · intro hne
      cases l <;> cases r <;> simp_all [Object.type, ptrEq]
  · intro l r op h1 h2 h3 h4 h5
    cases l <;> cases r <;>
      simp_all [evalInfixExpression, Object.type, newError, h1, h2]
  · intro l r op h1 h2 h3 h4 h5
    cases l <;> cases r <;>
      simp_all [evalInfixExpression, Object.type, newError, h1, h2]

/-- C4 witness: `7 / 2` is Integer 3 (non-zero divisor discharged at `2`),
`1 == "1"` is the false singleton rather than a fault, and `true < false`
is a type-level fault despite matching kinds lacking `<`. -/
theorem claim_C4_witness :
    evalInfixExpression "/" (some (.Integer 7)) (some (.Integer 2)) =
        .ok (some (.Integer (wrap64 (Int.tdiv 7 2)))) ∧
    evalInfixExpression "==" (some (.Integer 1)) (some (.String "1")) =
        .ok (some (nativeBoolToBooleanObject (ptrEq (some (.Integer 1)) (some (.String "1"))))) ∧
    ptrEq (some (.Integer 1)) (some (.String "1")) = false ∧
    evalInfixExpression "<" (some (.Boolean true)) (some (.Boolean false)) =
        .ok (some (.Error "unknown operator: BOOLEAN < BOOLEAN")) :=
  ⟨((claim_C4_infix_dispatch.1 7 2).2.2.2.1 (by decide)),
   (claim_C4_infix_dispatch.2.2.2.2.1 (.Integer 1) (.String "1")
      (by simp [Object.type]) (by simp [Object.type])).1,
   (claim_C4_infix_dispatch.2.2.2.2.1 (.Integer 1) (.String "1")
      (by simp [Object.type]) (by simp [Object.type])).2.2 (by simp [Object.type]),
   claim_C4_infix_dispatch.2.2.2.2.2.2.1 (.Boolean true) (.Boolean false) "<"
      (by decide) (by decide) rfl (by simp [Object.type]) (by simp [Object.type])⟩

/-- Stepping lemma for the top-level statement loop: a non-signal statement
result lets `evalProgram` continue on the remaining statements from the new
state. -/
theorem evalProgram_step (bs : Builtins) (fuel : Nat) (s s2 : Stmt)
    (rest : List Stmt) (env : Nat) (h : Heap) (n : Nat) (r : GoVal) (h' : Heap) (n' : Nat)
    (hst : evalStmt bs fuel s env h n = .ok (r, h', n'))
    (hns : isReturnOrError r = false) :
    evalProgram bs (fuel + 1) (s :: s2 :: rest) env h n =
      evalProgram bs fuel (s2 :: rest) env h' n' := by
  rcases r with _ | o
  · simp [evalProgram, hst]
  · cases o <;> simp_all [evalProgram, isReturnOrError]

/-- `run` keeps only the value component of the final evaluation state. -/
theorem run_of_evalProgram (bs : Builtins) (fuel : Nat) (program : List Stmt)
    (r : GoVal) (h' : Heap) (n' : Nat)
    (hp : evalProgram bs fuel program NewEnvironment.2 NewEnvironment.1 0 = .ok (r, h', n')) :
    run bs fuel program = .ok r := by
  simp [run, hp]

set_option maxHeartbeats 1000000 in
/-- C2: a function literal evaluates to a Function value holding the
parameter list, the body, and the reference to the environment current at
definition time (the heap is unchanged — nothing is copied, the reference is
shared); applying a Function allocates a fresh environment whose outer link
is the Function's captured environment (the caller's environment plays no
role), binds the parameters there positionally and evaluates the body in it,
unwrapping a ReturnValue at this boundary; concretely the adder/add5 closure
programs evaluate to Integer 8 and Integer 12. -/
theorem claim_C2_closures :
    (∀ (bs : Builtins) (fuel : Nat) (params : List GoString) (body : List Stmt)
        (env : Nat) (h : Heap) (n : Nat),
        evalExpr bs (fuel + 1) (.FunctionLiteral params body) env h n =
          .ok (some (.Function n params body env), h, n + 1)) ∧
    (∀ (h : Heap) (outer : Nat),
        NewEnclosedEnvironment h outer = (h ++ [⟨[], some outer⟩], h.length)) ∧
    (∀ (bs : Builtins) (fuel i : Nat) (params : List GoString) (body : List Stmt)
        (envRef : Nat) (args : List GoVal) (h h2 : Heap) (n : Nat),
        setParams (h ++ [⟨[], some envRef⟩]) h.length params args = .ok h2 →
        applyFunction bs (fuel + 1) (some (.Function i params body envRef)) args h n =
          (evalBlock bs fuel body h.length h2 n).bind fun eh =>
            .ok (unwrapReturnValue eh.1, eh.2)) ∧
    run noBuiltins 50 (adderProgram 3) = .ok (some (.Integer 8)) ∧
    run noBuiltins 50 (adderProgram 7) = .ok (some (.Integer 12)) ∧
    run noBuiltins 50 adderProgramTwice = .ok (some (.Integer 12)) := by
  refine ⟨fun bs fuel params body env h n => rfl, fun h outer => rfl,
    ?_, rfl, rfl, ?_⟩
  · intro bs fuel i params body envRef args h h2 n hsp
    simp only [applyFunction, NewEnclosedEnvironment] at hsp ⊢
    rw [hsp, Res.bind_ok]
  · -- adderProgramTwice, stepped statement by statement through concrete states
    have e1 : evalStmt noBuiltins 49
        (.LetStatement "adder" (.FunctionLiteral ["x"]
          [.ExpressionStatement (.FunctionLiteral ["y"]
            [.ExpressionStatement (.InfixExpression "+" (.Identifier "x") (.Identifier "y"))])]))
        0 [⟨[], none⟩] 0 =
        .ok (none,
          [⟨[("adder", some (.Function 0 ["x"]
              [.ExpressionStatement (.FunctionLiteral ["y"]
                [.ExpressionStatement (.InfixExpression "+" (.Identifier "x") (.Identifier "y"))])] 0))],
            none⟩], 1) := rfl
    have e2 : evalStmt noBuiltins 48
        (.LetStatement "add5" (.CallExpression (.Identifier "adder") [.IntegerLiteral 5]))
        0 [⟨[("adder", some (.Function 0 ["x"]
              [.ExpressionStatement (.FunctionLiteral ["y"]
                [.ExpressionStatement (.InfixExpression "+" (.Identifier "x") (.Identifier "y"))])] 0))],
            none⟩] 1 =
        .ok (none,
          [⟨[("adder", some (.Function 0 ["x"]
              [.ExpressionStatement (.FunctionLiteral ["y"]
                [.ExpressionStatement (.InfixExpression "+" (.Identifier "x") (.Identifier "y"))])] 0)),
             ("add5", some (.Function 1 ["y"]
              [.ExpressionStatement (.InfixExpression "+" (.Identifier "x") (.Identifier "y"))] 1))],
            none⟩,
           ⟨[("x", some (.Integer 5))], some 0⟩], 2) := rfl
    have e3 : evalStmt noBuiltins 47
        (.ExpressionStatement (.CallExpression (.Identifier "add5") [.IntegerLiteral 3]))
        0 [⟨[("adder", some (.Function 0 ["x"]
              [.ExpressionStatement (.FunctionLiteral ["y"]
                [.ExpressionStatement (.InfixExpression "+" (.Identifier "x") (.Identifier "y"))])] 0)),
             ("add5", some (.Function 1 ["y"]
              [.ExpressionStatement (.InfixExpression "+" (.Identifier "x") (.Identifier "y"))] 1))],
            none⟩,
           ⟨[("x", some (.Integer 5))], some 0⟩] 2 =
        .ok (some (.Integer 8),
          [⟨[("adder", some (.Function 0 ["x"]
              [.ExpressionStatement (.FunctionLiteral ["y"]
                [.ExpressionStatement (.InfixExpression "+" (.Identifier "x") (.Identifier "y"))])] 0)),
             ("add5", some (.Function 1 ["y"]
              [.ExpressionStatement (.InfixExpression "+" (.Identifier "x") (.Identifier "y"))] 1))],
            none⟩,
           ⟨[("x", some (.Integer 5))], some 0⟩,
           ⟨[("y", some (.Integer 3))], some 1⟩], 2) := rfl
    have e4 : evalProgram noBuiltins 47
        [.ExpressionStatement (.CallExpression (.Identifier "add5") [.IntegerLiteral 7])]
        0 [⟨[("adder", some (.Function 0 ["x"]
              [.ExpressionStatement (.FunctionLiteral ["y"]
                [.ExpressionStatement (.InfixExpression "+" (.Identifier "x") (.Identifier "y"))])] 0)),
             ("add5", some (.Function 1 ["y"]
              [.ExpressionStatement (.InfixExpression "+" (.Identifier "x") (.Identifier "y"))] 1))],
            none⟩,
           ⟨[("x", some (.Integer 5))], some 0⟩,
           ⟨[("y", some (.Integer 3))], some 1⟩] 2 =
        .ok (some (.Integer 12),
          [⟨[("adder", some (.Function 0 ["x"]
              [.ExpressionStatement (.FunctionLiteral ["y"]
                [.ExpressionStatement (.InfixExpression "+" (.Identifier "x") (.Identifier "y"))])] 0)),
             ("add5", some (.Function 1 ["y"]
              [.ExpressionStatement (.InfixExpression "+" (.Identifier "x") (.Identifier "y"))] 1))],
            none⟩,
           ⟨[("x", some (.Integer 5))], some 0⟩,
           ⟨[("y", some (.Integer 3))], some 1⟩,
           ⟨[("y", some (.Integer 7))], some 1⟩], 2) := rfl
    apply run_of_evalProgram noBuiltins 50 adderProgramTwice (some (.Integer 12))
    show evalProgram noBuiltins 50 adderProgramTwice 0 [⟨[], none⟩] 0 = _
    rw [show (50 : Nat) = 49 + 1 from rfl, adderProgramTwice,
      evalProgram_step noBuiltins 49 _ _ _ 0 _ 0 _ _ _ e1 rfl,
      show (49 : Nat) = 48 + 1 from rfl,
      evalProgram_step noBuiltins 48 _ _ _ 0 _ 1 _ _ _ e2 rfl,
      show (48 : Nat) = 47 + 1 from rfl,
      evalProgram_step noBuiltins 47 _ _ _ 0 _ 2 _ _ _ e3 rfl,
      e4]

/-- C2 witness: applying `fn(x) { }` (captured environment 0) to one argument
on a one-frame heap: the parameter-binding hypothesis is discharged on the
concretely extended heap, and the application reduces to evaluating the body
in the fresh frame 1 whose outer link is the captured environment 0. -/
theorem claim_C2_witness :
    applyFunction noBuiltins 3 (some (.Function 0 ["x"] [] 0))
        [some (.Integer 1)] [⟨[], none⟩] 1 =
      (evalBlock noBuiltins 2 [] 1
          [⟨[], none⟩, ⟨[("x", some (.Integer 1))], some 0⟩] 1).bind fun eh =>
        .ok (unwrapReturnValue eh.1, eh.2) :=
  claim_C2_closures.2.2.1 noBuiltins 2 0 ["x"] [] 0 [some (.Integer 1)]
    [⟨[], none⟩] [⟨[], none⟩, ⟨[("x", some (.Integer 1))], some 0⟩] 1 rfl

/-- C6 counterexample: the claim's example `[1, fn(){}(), 3]` does not fault:
calling a function literal with an empty body yields Go nil (not an Error),
so the array literal evaluates all three elements and produces the Array
`[1, nil, 3]` — in particular not the "not a function" Error. -/
theorem claim_C6_counterexample :
    run noBuiltins 50 arrayNilCallProgram =
      .ok (some (.Array 1 [some (.Integer 1), none, some (.Integer 3)])) ∧
    run noBuiltins 50 arrayNilCallProgram ≠
      .ok (some (.Error "not a function: FUNCTION")) := by
  have h1 : run noBuiltins 50 arrayNilCallProgram =
      .ok (some (.Array 1 [some (.Integer 1), none, some (.Integer 3)])) := rfl
  refine ⟨h1, ?_⟩
  rw [h1]
  intro hcon
  simp at hcon

/-- C6 (amended): call-argument and array-element expressions are evaluated
strictly left to right; the first Error aborts the sequence — the result is
the one-element error slice, later expressions are never evaluated (the
outcome does not depend on them), and the call/array literal returns that
single Error; likewise an infix expression whose left operand evaluates to an
Error returns it without evaluating the right operand; e.g. `[1, 5 + true, 3]`
evaluates to the "type mismatch: INTEGER + BOOLEAN" Error. -/
theorem claim_C6_short_circuit :
    (∀ (bs : Builtins) (fuel : Nat) (e : Expr) (rest : List Expr)
        (acc : List GoVal) (env : Nat) (h : Heap) (n : Nat) (errv : GoVal)
        (h' : Heap) (n' : Nat),
        evalExpr bs fuel e env h n = .ok (errv, h', n') → isError errv = true →
        evalExpressions bs (fuel + 1) (e :: rest) acc env h n = .ok ([errv], h', n')) ∧
    (∀ (bs : Builtins) (fuel : Nat) (e : Expr) (rest : List Expr)
        (acc : List GoVal) (env : Nat) (h : Heap) (n : Nat) (v : GoVal)
        (h' : Heap) (n' : Nat),
        evalExpr bs fuel e env h n = .ok (v, h', n') → isError v = false →
        evalExpressions bs (fuel + 1) (e :: rest) acc env h n =
          evalExpressions bs fuel rest (acc ++ [v]) env h' n') ∧
    (∀ (bs : Builtins) (fuel : Nat) (op : GoString) (l : Expr) (env : Nat)
        (h : Heap) (n : Nat) (errv : GoVal) (h' : Heap) (n' : Nat),
        evalExpr bs fuel l env h n = .ok (errv, h', n') → isError errv = true →
        ∀ r : Expr,
          evalExpr bs (fuel + 1) (.InfixExpression op l r) env h n = .ok (errv, h', n')) ∧
    (∀ (bs : Builtins) (fuel : Nat) (f : Expr) (argExprs : List Expr) (env : Nat)
        (h : Heap) (n : Nat) (fv : GoVal) (h1 : Heap) (n1 : Nat) (errv : GoVal)
        (h2 : Heap) (n2 : Nat),
        evalExpr bs fuel f env h n = .ok (fv, h1, n1) → isError fv = false →
        evalExpressions bs fuel argExprs [] env h1 n1 = .ok ([errv], h2, n2) →
        isError errv = true →
        evalExpr bs (fuel + 1) (.CallExpression f argExprs) env h n = .ok (errv, h2, n2)) ∧
    (∀ (bs : Builtins) (fuel : Nat) (elemExprs : List Expr) (env : Nat)
        (h : Heap) (n : Nat) (errv : GoVal) (h1 : Heap) (n1 : Nat),
        evalExpressions bs fuel elemExprs [] env h n = .ok ([errv], h1, n1) →
        isError errv = true →
        evalExpr bs (fuel + 1) (.ArrayLiteral elemExprs) env h n = .ok (errv, h1, n1)) ∧
    run noBuiltins 50 arrayTypeMismatchProgram =
      .ok (some (.Error "type mismatch: INTEGER + BOOLEAN")) := by
  refine ⟨?_, ?_, ?_, ?_, ?_, rfl⟩
  · intro bs fuel e rest acc env h n errv h' n' hev herr
    simp [evalExpressions, hev, herr]
  · intro bs fuel e rest acc env h n v h' n' hev herr
    simp [evalExpressions, hev, herr]
  · intro bs fuel op l env h n errv h' n' hev herr r
    simp [evalExpr, hev, herr]
  · intro bs fuel f argExprs env h n fv h1 n1 errv h2 n2 hef herrf hargs herr
    simp [evalExpr, hef, herrf, hargs, herr]
  · intro bs fuel elemExprs env h n errv h1 n1 hargs herr
    simp [evalExpr, hargs, herr]

/-- C6 witness: in `[1, 5 + true, 3]` the faulting middle element makes
`evalExpressions` return the singleton error slice for every continuation—
instantiated here with the third element `3` still pending, never
evaluated. -/
theorem claim_C6_witness :
    evalExpressions noBuiltins 3
        (.InfixExpression "+" (.IntegerLiteral 5) (.BooleanLiteral true)
          :: [.IntegerLiteral 3]) [some (.Integer 1)] 0 [⟨[], none⟩] 0 =
      .ok ([some (.Error "type mismatch: INTEGER + BOOLEAN")], [⟨[], none⟩], 0) :=
  claim_C6_short_circuit.1 noBuiltins 2
    (.InfixExpression "+" (.IntegerLiteral 5) (.BooleanLiteral true))
    [.IntegerLiteral 3] [some (.Integer 1)] 0 [⟨[], none⟩] 0
    (some (.Error "type mismatch: INTEGER + BOOLEAN")) [⟨[], none⟩] 0 rfl rfl

/-- C5 counterexample: in `{ (if (true) {}) : 1 }` the key expression
evaluates to Go nil (not an Error, not key-derivable); the code then builds
the "unusable as hash key" message by calling `keyObject.Type()` on the nil
interface and panics — no Error value is produced, refuting the claim's
universal "else fault Error \x22unusable as hash key: <type>\x22". -/
theorem claim_C5_counterexample :
    run noBuiltins 50 hashNilKeyProgram = .panicked ∧
    run noBuiltins 50 hashNilKeyProgram ≠
      .ok (some (.Error "unusable as hash key: NULL")) := by
  have h1 : run noBuiltins 50 hashNilKeyProgram = .panicked := rfl
  refine ⟨h1, ?_⟩
  intro hcon
  rw [h1] at hcon
  simp at hcon

/-- C5 (amended): hash-literal pairs are processed in source order; the key
expression is evaluated first (an Error propagates, the value expression and
the remaining pairs are never evaluated); a key that evaluates to a proper
but non-key-derivable value faults with "unusable as hash key: <type>" before
the value expression is evaluated (a Go-nil key instead crashes, see the
counterexample); then the value expression is evaluated (an Error
propagates), and the pair (original key value, value) is stored under the
derived hash key, a later duplicate key overwriting the earlier entry. -/
theorem claim_C5_hash_literal :
    (∀ (bs : Builtins) (fuel : Nat) (acc : List (HashKey × GoVal × GoVal))
        (hid env : Nat) (h : Heap) (n : Nat),
        evalHashPairs bs (fuel + 1) [] acc hid env h n =
          .ok (some (.Hash hid acc), h, n)) ∧
    (∀ (bs : Builtins) (fuel : Nat) (k v : Expr) (rest : List (Expr × Expr))
        (acc : List (HashKey × GoVal × GoVal)) (hid env : Nat) (h : Heap) (n : Nat)
        (kv : GoVal) (h' : Heap) (n' : Nat),
        evalExpr bs fuel k env h n = .ok (kv, h', n') → isError kv = true →
        evalHashPairs bs (fuel + 1) ((k, v) :: rest) acc hid env h n = .ok (kv, h', n')) ∧
    (∀ (bs : Builtins) (fuel : Nat) (k v : Expr) (rest : List (Expr × Expr))
        (acc : List (HashKey × GoVal × GoVal)) (hid env : Nat) (h : Heap) (n : Nat)
        (ko : Object) (h' : Heap) (n' : Nat),
        evalExpr bs fuel k env h n = .ok (some ko, h', n') → isError (some ko) = false →
        hashKeyOf ko = none →
        evalHashPairs bs (fuel + 1) ((k, v) :: rest) acc hid env h n =
          .ok (some (.Error ("unusable as hash key: " ++ ko.type)), h', n')) ∧
    (∀ (bs : Builtins) (fuel : Nat) (k v : Expr) (rest : List (Expr × Expr))
        (acc : List (HashKey × GoVal × GoVal)) (hid env : Nat) (h : Heap) (n : Nat)
        (ko : Object) (hk : HashKey) (h' : Heap) (n' : Nat) (vv : GoVal)
        (h'' : Heap) (n'' : Nat),
        evalExpr bs fuel k env h n = .ok (some ko, h', n') → hashKeyOf ko = some hk →
        evalExpr bs fuel v env h' n' = .ok (vv, h'', n'') → isError vv = true →
        evalHashPairs bs (fuel + 1) ((k, v) :: rest) acc hid env h n = .ok (vv, h'', n'')) ∧
    (∀ (bs : Builtins) (fuel : Nat) (k v : Expr) (rest : List (Expr × Expr))
        (acc : List (HashKey × GoVal × GoVal)) (hid env : Nat) (h : Heap) (n : Nat)
        (ko : Object) (hk : HashKey) (h' : Heap) (n' : Nat) (vv : GoVal)
        (h'' : Heap) (n'' : Nat),
        evalExpr bs fuel k env h n = .ok (some ko, h', n') → hashKeyOf ko = some hk →
        evalExpr bs fuel v env h' n' = .ok (vv, h'', n'') → isError vv = false →
        evalHashPairs bs (fuel + 1) ((k, v) :: rest) acc hid env h n =
          evalHashPairs bs fuel rest (alistSet acc hk (some ko, vv)) hid env h'' n'') ∧
    (∀ (acc : List (HashKey × GoVal × GoVal)) (hk : HashKey) (p : GoVal × GoVal),
        alistGet (alistSet acc hk p) hk = some p) := by
  have keyNotError : ∀ (ko : Object) (hk : HashKey),
      hashKeyOf ko = some hk → isError (some ko) = false := by
    intro ko hk hko; cases ko <;> simp_all [hashKeyOf, isError]
  refine ⟨fun bs fuel acc hid env h n => rfl, ?_, ?_, ?_, ?_, ?_⟩
  · intro bs fuel k v rest acc hid env h n kv h' n' hk herr
    simp [evalHashPairs, hk, herr]
  · intro bs fuel k v rest acc hid env h n ko h' n' hk herr hko
    simp [evalHashPairs, hk, herr, hko, newError]
  · intro bs fuel k v rest acc hid env h n ko hk h' n' vv h'' n'' hke hko hve herr
    simp [evalHashPairs, hke, keyNotError ko hk hko, hko, hve, herr]
  · intro bs fuel k v rest acc hid env h n ko hk h' n' vv h'' n'' hke hko hve herr
    simp [evalHashPairs, hke, keyNotError ko hk hko, hko, hve, herr]
  · intro acc hk p
    induction acc with
    | nil => simp [alistSet, alistGet]
    | cons q rest ih =>
      by_cases hq : q.1 = hk
      · simp [alistSet, alistGet, hq]
      · obtain ⟨q1, q2⟩ := q
        simp only at hq
        simp [alistSet, alistGet, hq, ih]

/-- C5 witness: processing the pair `1: 20` against an accumulator already
holding an entry for key 1 — the key is evaluated, found derivable, the value
is evaluated, and the loop continues with the entry for key 1 overwritten
(every hypothesis discharged by `rfl` at these concrete inputs). -/
theorem claim_C5_witness :
    evalHashPairs noBuiltins 3 [(.IntegerLiteral 1, .IntegerLiteral 20)]
        [(.ofInteger 1, some (.Integer 1), some (.Integer 10))] 0 0 [⟨[], none⟩] 1 =
      evalHashPairs noBuiltins 2 []
        (alistSet [(.ofInteger 1, some (.Integer 1), some (.Integer 10))]
          (.ofInteger 1) (some (.Integer 1), some (.Integer 20))) 0 0 [⟨[], none⟩] 1 :=
  claim_C5_hash_literal.2.2.2.2.1 noBuiltins 2 (.IntegerLiteral 1) (.IntegerLiteral 20)
    [] [(.ofInteger 1, some (.Integer 1), some (.Integer 10))] 0 0 [⟨[], none⟩] 1
    (.Integer 1) (.ofInteger 1) [⟨[], none⟩] 1 (some (.Integer 20)) [⟨[], none⟩] 1
    rfl rfl rfl rfl

/-- On a well-formed heap the chain walk of `Environment.Get` is independent
of the fuel bound as soon as the bound exceeds the starting reference (outer
links strictly decrease, so the walk takes at most `ref + 1` steps). -/
theorem envGetAux_fuel_irrel (h : Heap) (hwf : heapWF h) :
    ∀ (ref fuel1 fuel2 : Nat) (name : GoString), ref < fuel1 → ref < fuel2 →
      envGetAux h fuel1 ref name = envGetAux h fuel2 ref name := by
  intro ref
  induction ref using Nat.strong_induction_on with
  | _ ref ih =>
    intro fuel1 fuel2 name hf1 hf2
    obtain ⟨g1, rfl⟩ : ∃ g1, fuel1 = g1 + 1 := ⟨fuel1 - 1, by omega⟩
    obtain ⟨g2, rfl⟩ : ∃ g2, fuel2 = g2 + 1 := ⟨fuel2 - 1, by omega⟩
    simp only [envGetAux]
    cases hframe : h[ref]? with
    | none => rfl
    | some frame =>
      dsimp only
      cases alistGet frame.store name with
      | some v => rfl
      | none =>
        dsimp only
        cases houter : frame.outer with
        | none => rfl
        | some o =>
          dsimp only
          have ho : o < ref := hwf ref frame hframe o houter
          exact ih o ho g1 g2 name (by omega) (by omega)

/-- C8: identifier resolution — `Environment.Get` walks the scope chain from
the innermost frame outward and returns the nearest binding; only when the
name is absent from the whole chain does the evaluator consult the builtin
registry, and only when absent there too does it produce
"identifier not found: <name>". -/
theorem claim_C8_identifier_resolution :
    (∀ (h : Heap) (ref : Nat) (frame : Frame) (name : GoString) (v : GoVal),
        h[ref]? = some frame → alistGet frame.store name = some v →
        Environment.Get h ref name = some v) ∧
    (∀ (h : Heap) (ref : Nat) (frame : Frame) (name : GoString) (o : Nat),
        heapWF h → h[ref]? = some frame → alistGet frame.store name = none →
        frame.outer = some o →
        Environment.Get h ref name = Environment.Get h o name) ∧
    (∀ (h : Heap) (ref : Nat) (frame : Frame) (name : GoString),
        h[ref]? = some frame → alistGet frame.store name = none →
        frame.outer = none → Environment.Get h ref name = none) ∧
    (∀ (bs : Builtins) (fuel env : Nat) (h : Heap) (n : Nat) (name : GoString)
        (v : GoVal),
        Environment.Get h env name = some v →
        evalExpr bs (fuel + 1) (.Identifier name) env h n = .ok (v, h, n)) ∧
    (∀ (bs : Builtins) (fuel env : Nat) (h : Heap) (n : Nat) (name : GoString)
        (f : List GoVal → Nat → GoVal × Nat),
        Environment.Get h env name = none → bs name = some f →
        evalExpr bs (fuel + 1) (.Identifier name) env h n =
          .ok (some (.Builtin name), h, n)) ∧
    (∀ (bs : Builtins) (fuel env : Nat) (h : Heap) (n : Nat) (name : GoString),
        Environment.Get h env name = none → bs name = none →
        evalExpr bs (fuel + 1) (.Identifier name) env h n =
          .ok (some (.Error ("identifier not found: " ++ name)), h, n)) := by
  have hlen : ∀ (h : Heap) (ref : Nat) (frame : Frame),
      h[ref]? = some frame → ref < h.length := by
    intro h ref frame hframe
    exact (List.getElem?_eq_some.mp hframe).1
  refine ⟨?_, ?_, ?_, ?_, ?_, ?_⟩
  · intro h ref frame name v hframe hget
    have := hlen h ref frame hframe
    obtain ⟨n, hn⟩ : ∃ n, h.length = n + 1 := ⟨h.length - 1, by omega⟩
    unfold Environment.Get
    rw [hn]
    simp [envGetAux, hframe, hget]
  · intro h ref frame name o hwf hframe hget houter
    have hr := hlen h ref frame hframe
    have ho : o < ref := hwf ref frame hframe o houter
    obtain ⟨n, hn⟩ : ∃ n, h.length = n + 1 := ⟨h.length - 1, by omega⟩
    unfold Environment.Get
    rw [hn]
    simp only [envGetAux, hframe, hget, houter]
    exact envGetAux_fuel_irrel h hwf o n (n + 1) name (by omega) (by omega)
  · intro h ref frame name hframe hget houter
    have := hlen h ref frame hframe
    obtain ⟨n, hn⟩ : ∃ n, h.length = n + 1 := ⟨h.length - 1, by omega⟩
    unfold Environment.Get
    rw [hn]
    simp [envGetAux, hframe, hget, houter]
  · intro bs fuel env h n name v hget
    simp [evalExpr, hget]
  · intro bs fuel env h n name f hget hbs
    simp [evalExpr, hget, hbs]
  · intro bs fuel env h n name hget hbs
    simp [evalExpr, hget, hbs, newError]

/-- C8 witness: on the two-frame heap where frame 1 (inner, outer link 0)
binds `x` shadowing frame 0's binding, lookup from frame 1 returns the inner
value; a name absent from the chain falls through to the builtin registry or
to "identifier not found". -/
theorem claim_C8_witness :
    Environment.Get
        [⟨[("x", some (.Integer 1))], none⟩, ⟨[("x", some (.Integer 2))], some 0⟩]
        1 "x" = some (some (.Integer 2)) ∧
    evalExpr noBuiltins 1 (.Identifier "y") 0 [⟨[], none⟩] 0 =
      .ok (some (.Error "identifier not found: y"), [⟨[], none⟩], 0) :=
  ⟨claim_C8_identifier_resolution.1
      [⟨[("x", some (.Integer 1))], none⟩, ⟨[("x", some (.Integer 2))], some 0⟩]
      1 ⟨[("x", some (.Integer 2))], some 0⟩ "x" (some (.Integer 2)) rfl rfl,
   claim_C8_identifier_resolution.2.2.2.2.2 noBuiltins 0 0 [⟨[], none⟩] 0 "y" rfl rfl⟩

/-- C1: at the top level (`evalProgram`) the statement loop stops at the
first Error and returns it, stops at the first ReturnValue and returns its
inner value (unwrapped), and otherwise returns the last statement's result;
inside a block (`evalStatements`) a ReturnValue or Error result stops the
loop and is returned unmodified — unwrapping happens only at the
function-call boundary, where `applyFunction` strips exactly one
ReturnValue layer off the body's result. -/
theorem claim_C1_signal_propagation :
    (∀ (bs : Builtins) (fuel : Nat) (s : Stmt) (rest : List Stmt) (env : Nat)
        (h : Heap) (n : Nat) (r : GoVal) (h' : Heap) (n' : Nat),
        evalStmt bs fuel s env h n = .ok (r, h', n') →
        (∀ m, r = some (.Error m) →
          evalProgram bs (fuel + 1) (s :: rest) env h n = .ok (r, h', n')) ∧
        (∀ i v, r = some (.ReturnValue i v) →
          evalProgram bs (fuel + 1) (s :: rest) env h n = .ok (v, h', n')) ∧
        (isReturnOrError r = false →
          (rest = [] → evalProgram bs (fuel + 1) (s :: rest) env h n = .ok (r, h', n')) ∧
          (rest ≠ [] → evalProgram bs (fuel + 1) (s :: rest) env h n =
            evalProgram bs fuel rest env h' n'))) ∧
    (∀ (bs : Builtins) (fuel : Nat) (s : Stmt) (rest : List Stmt) (env : Nat)
        (h : Heap) (n : Nat) (r : GoVal) (h' : Heap) (n' : Nat),
        evalStmt bs fuel s env h n = .ok (r, h', n') →
        (isReturnOrError r = true →
          evalBlock bs (fuel + 1) (s :: rest) env h n = .ok (r, h', n')) ∧
        (isReturnOrError r = false →
          (rest = [] → evalBlock bs (fuel + 1) (s :: rest) env h n = .ok (r, h', n')) ∧
          (rest ≠ [] → evalBlock bs (fuel + 1) (s :: rest) env h n =
            evalBlock bs fuel rest env h' n'))) ∧
    (∀ (bs : Builtins) (fuel i : Nat) (params : List GoString) (body : List Stmt)
        (envRef : Nat) (args : List GoVal) (h h2 : Heap) (n : Nat) (r : GoVal)
        (h3 : Heap) (n3 : Nat),
        setParams (h ++ [⟨[], some envRef⟩]) h.length params args = .ok h2 →
        evalBlock bs fuel body h.length h2 n = .ok (r, h3, n3) →
        applyFunction bs (fuel + 1) (some (.Function i params body envRef)) args h n =
          .ok (unwrapReturnValue r, h3, n3)) ∧
    (∀ (i : Nat) (v : GoVal), unwrapReturnValue (some (.ReturnValue i v)) = v) ∧
    (∀ r : GoVal, (∀ i v, r ≠ some (.ReturnValue i v)) → unwrapReturnValue r = r) := by
  refine ⟨?_, ?_, ?_, fun i v => rfl, ?_⟩
  · intro bs fuel s rest env h n r h' n' hst
    refine ⟨?_, ?_, fun hns => ⟨?_, ?_⟩⟩
    · rintro m rfl; simp [evalProgram, hst]
    · rintro i v rfl; simp [evalProgram, hst]
    · rintro rfl
      rcases r with _ | o
      · simp [evalProgram, hst]
      · cases o <;> simp_all [evalProgram, isReturnOrError]
    · intro hne
      obtain ⟨s2, rest2, rfl⟩ : ∃ s2 rest2, rest = s2 :: rest2 := by
        cases rest with
        | nil => exact absurd rfl hne
        | cons a b => exact ⟨a, b, rfl⟩
      rcases r with _ | o
      · simp [evalProgram, hst]
      · cases o <;> simp_all [evalProgram, isReturnOrError]
  · intro bs fuel s rest env h n r h' n' hst
    refine ⟨?_, fun hns => ⟨?_, ?_⟩⟩
    · intro hsig; simp [evalBlock, hst, hsig]
    · rintro rfl; simp [evalBlock, hst, hns]
    · intro hne
      obtain ⟨s2, rest2, rfl⟩ : ∃ s2 rest2, rest = s2 :: rest2 := by
        cases rest with
        | nil => exact absurd rfl hne
        | cons a b => exact ⟨a, b, rfl⟩
      simp [evalBlock, hst, hns]
  · intro bs fuel i params body envRef args h h2 n r h3 n3 hsp hblock
    simp only [applyFunction, NewEnclosedEnvironment] at hsp ⊢
    rw [hsp, Res.bind_ok, hblock, Res.bind_ok]
  · intro r hr
    rcases r with _ | o
    · rfl
    · cases o <;> first
        | rfl
        | exact absurd rfl (hr _ _)

/-- C1 witness: a top-level statement faulting with "identifier not found"
ends the program with that Error (the next statement pending); a `return 4`
inside a block ends the block with the ReturnValue wrapper unstripped. -/
theorem claim_C1_witness :
    evalProgram noBuiltins 3
        [.ExpressionStatement (.Identifier "x"), .ExpressionStatement (.IntegerLiteral 1)]
        0 [⟨[], none⟩] 0 =
      .ok (some (.Error "identifier not found: x"), [⟨[], none⟩], 0) ∧
    evalBlock noBuiltins 3
        [.ReturnStatement (.IntegerLiteral 4), .ExpressionStatement (.IntegerLiteral 1)]
        0 [⟨[], none⟩] 0 =
      .ok (some (.ReturnValue 0 (some (.Integer 4))), [⟨[], none⟩], 1) :=
  ⟨(claim_C1_signal_propagation.1 noBuiltins 2 (.ExpressionStatement (.Identifier "x"))
      [.ExpressionStatement (.IntegerLiteral 1)] 0 [⟨[], none⟩] 0
      (some (.Error "identifier not found: x")) [⟨[], none⟩] 0 rfl).1
      "identifier not found: x" rfl,
   (claim_C1_signal_propagation.2.1 noBuiltins 2 (.ReturnStatement (.IntegerLiteral 4))
      [.ExpressionStatement (.IntegerLiteral 1)] 0 [⟨[], none⟩] 0
      (some (.ReturnValue 0 (some (.Integer 4)))) [⟨[], none⟩] 1 rfl).1 rfl⟩

/-- C3 counterexample: the signal-variant invariant is violated for
ReturnValue.  `let x = if (true) { return 5; };` evaluates the if-expression
in value position to the ReturnValue signal, which `isError` does not catch,
so the let binding stores a ReturnValue into the Environment (the final heap
falsifies `heapSignalFree`); likewise `[if (true) { return 5; }, 2]` builds
an Array holding a ReturnValue element, and `probe(if (true) { return 5; })`
passes a ReturnValue as a Builtin argument (the echoing `probe` builtin
returns exactly the argument slice it received). -/
theorem claim_C3_counterexample :
    evalProgram noBuiltins 20 letLeakProgram 0 [⟨[], none⟩] 0 =
      .ok (none, [⟨[("x", some (.ReturnValue 0 (some (.Integer 5))))], none⟩], 1) ∧
    heapSignalFree [⟨[("x", some (.ReturnValue 0 (some (.Integer 5))))], none⟩] = false ∧
    run noBuiltins 20 arrayLeakProgram =
      .ok (some (.Array 1 [some (.ReturnValue 0 (some (.Integer 5))), some (.Integer 2)])) ∧
    goValSignalFree
      (some (.Array 1 [some (.ReturnValue 0 (some (.Integer 5))), some (.Integer 2)])) = false ∧
    run probeBuiltins 20 probeLeakProgram =
      .ok (some (.Array 1 [some (.ReturnValue 0 (some (.Integer 5)))])) :=
  ⟨rfl, rfl, rfl, rfl, rfl⟩

/-! ### Error-freedom helper lemmas for the C3 invariant -/

theorem alistGet_store_errorFree (s : List (GoString × GoVal)) (k : GoString)
    (v : GoVal) (hs : storeErrorFree s = true) (hget : alistGet s k = some v) :
    goValErrorFree v = true := by
  induction s with
  | nil => simp [alistGet] at hget
  | cons q rest ih =>
    obtain ⟨q1, q2⟩ := q
    simp only [storeErrorFree, Bool.and_eq_true] at hs
    simp only [alistGet] at hget
    by_cases hq : (q1 == k) = true
    · rw [if_pos hq] at hget
      cases hget
      exact hs.1
    · rw [if_neg hq] at hget
      exact ih hs.2 hget

theorem heapFrame_errorFree (h : Heap) (i : Nat) (f : Frame)
    (hh : heapErrorFree h = true) (hf : h[i]? = some f) :
    storeErrorFree f.store = true := by
  induction h generalizing i with
  | nil => simp at hf
  | cons g rest ih =>
    simp only [heapErrorFree, Bool.and_eq_true] at hh
    cases i with
    | zero => simp at hf; cases hf; exact hh.1
    | succ j =>
      simp only [List.getElem?_cons_succ] at hf
      exact ih j hh.2 hf

theorem envGet_errorFree (h : Heap) (ref : Nat) (name : GoString) (v : GoVal)
    (hh : heapErrorFree h = true) (hget : Environment.Get h ref name = some v) :
    goValErrorFree v = true := by
  unfold Environment.Get at hget
  generalize h.length = fuel at hget
  induction fuel generalizing ref with
  | zero => simp [envGetAux] at hget
  | succ g ih =>
    cases hframe : h[ref]? with
    | none => simp only [envGetAux, hframe] at hget; cases hget
    | some frame =>
      cases hst : alistGet frame.store name with
      | some w =>
        simp only [envGetAux, hframe, hst] at hget
        cases hget
        exact alistGet_store_errorFree frame.store name v
          (heapFrame_errorFree h ref frame hh hframe) hst
      | none =>
        cases houter : frame.outer with
        | none => simp only [envGetAux, hframe, hst, houter] at hget; cases hget
        | some o =>
          simp only [envGetAux, hframe, hst, houter] at hget
          exact ih o hget

theorem alistSet_store_errorFree (s : List (GoString × GoVal)) (k : GoString)
    (v : GoVal) (hs : storeErrorFree s = true) (hv : goValErrorFree v = true) :
    storeErrorFree (alistSet s k v) = true := by
  induction s with
  | nil => simp [alistSet, storeErrorFree, hv]
  | cons q rest ih =>
    obtain ⟨q1, q2⟩ := q
    simp only [storeErrorFree, Bool.and_eq_true] at hs
    by_cases hq : (q1 == k) = true
    · simp [alistSet, hq, storeErrorFree, hv, hs.2]
    · simp [alistSet, hq, storeErrorFree, hs.1, ih hs.2]

theorem heapSet_errorFree (h : Heap) (i : Nat) (f : Frame)
    (hh : heapErrorFree h = true) (hf : storeErrorFree f.store = true) :
    heapErrorFree (h.set i f) = true := by
  induction h generalizing i with
  | nil => rfl
  | cons g rest ih =>
    simp only [heapErrorFree, Bool.and_eq_true] at hh
    cases i with
    | zero => simp [List.set, heapErrorFree, hf, hh.2]
    | succ j => simp [List.set, heapErrorFree, hh.1, ih j hh.2]

theorem envSet_errorFree (h : Heap) (ref : Nat) (k : GoString) (v : GoVal)
    (hh : heapErrorFree h = true) (hv : goValErrorFree v = true) :
    heapErrorFree (Environment.Set h ref k v) = true := by
  unfold Environment.Set
  cases hframe : h[ref]? with
  | none => exact hh
  | some frame =>
    exact heapSet_errorFree h ref _ hh
      (alistSet_store_errorFree frame.store k v
        (heapFrame_errorFree h ref frame hh hframe) hv)

theorem heapAppend_frame_errorFree (h : Heap) (o : Nat)
    (hh : heapErrorFree h = true) :
    heapErrorFree (h ++ [⟨[], some o⟩]) = true := by
  induction h with
  | nil => rfl
  | cons g rest ih =>
    simp only [heapErrorFree, Bool.and_eq_true] at hh
    simp only [List.cons_append, heapErrorFree, Bool.and_eq_true]
    exact ⟨hh.1, ih hh.2⟩

theorem setParams_errorFree (params : List GoString) (args : List GoVal)
    (h : Heap) (ref : Nat) (h2 : Heap) (hh : heapErrorFree h = true)
    (ha : goValListErrorFree args = true)
    (hsp : setParams h ref params args = .ok h2) : heapErrorFree h2 = true := by
  induction params generalizing args h with
  | nil => cases hsp; exact hh
  | cons p ps ih =>
    cases args with
    | nil => cases hsp
    | cons a rest =>
      simp only [goValListErrorFree, Bool.and_eq_true] at ha
      exact ih rest (Environment.Set h ref p a)
        (envSet_errorFree h ref p a hh ha.1) ha.2 hsp

theorem alistSet_hashPairs_errorFree
    (acc : List (HashKey × GoVal × GoVal)) (hk : HashKey) (kv vv : GoVal)
    (hacc : hashPairsErrorFree acc = true) (hkv : goValErrorFree kv = true)
    (hvv : goValErrorFree vv = true) :
    hashPairsErrorFree (alistSet acc hk (kv, vv)) = true := by
  induction acc with
  | nil => simp [alistSet, hashPairsErrorFree, hkv, hvv]
  | cons q rest ih =>
    obtain ⟨q1, q2, q3⟩ := q
    simp only [hashPairsErrorFree, Bool.and_eq_true] at hacc
    by_cases hq : (q1 == hk) = true
    · simp [alistSet, hq, hashPairsErrorFree, hkv, hvv, hacc.2]
    · simp [alistSet, hq, hashPairsErrorFree, hacc.1.1, hacc.1.2, ih hacc.2]

theorem alistGet_hashPairs_errorFree
    (pairs : List (HashKey × GoVal × GoVal)) (hk : HashKey) (p : GoVal × GoVal)
    (hps : hashPairsErrorFree pairs = true) (hget : alistGet pairs hk = some p) :
    goValErrorFree p.1 = true ∧ goValErrorFree p.2 = true := by
  induction pairs with
  | nil => simp [alistGet] at hget
  | cons q rest ih =>
    obtain ⟨q1, q2, q3⟩ := q
    simp only [hashPairsErrorFree, Bool.and_eq_true] at hps
    simp only [alistGet] at hget
    by_cases hq : (q1 == hk) = true
    · rw [if_pos hq] at hget
      cases hget
      exact ⟨hps.1.1, hps.1.2⟩
    · rw [if_neg hq] at hget
      exact ih hps.2 hget

theorem getElem_goValList_errorFree (l : List GoVal) (i : Nat) (v : GoVal)
    (hl : goValListErrorFree l = true) (hv : l[i]? = some v) :
    goValErrorFree v = true := by
  induction l generalizing i with
  | nil => simp at hv
  | cons a rest ih =>
    simp only [goValListErrorFree, Bool.and_eq_true] at hl
    cases i with
    | zero => simp at hv; cases hv; exact hl.1
    | succ j =>
      simp only [List.getElem?_cons_succ] at hv
      exact ih j hl.2 hv

theorem evalPrefix_resOk (op : GoString) (r : GoVal) (v : GoVal)
    (hv : evalPrefixExpression op r = .ok v) : resOk v = true := by
  unfold evalPrefixExpression at hv
  split at hv
  · cases hv
    rcases r with _ | o
    · rfl
    · cases o <;> first
        | rfl
        | (rename_i b; cases b <;> rfl)
  · split at hv
    · unfold evalMinusPrefixOperatorExpression at hv
      rcases r with _ | o
      · cases hv
      · cases o <;> dsimp only at hv <;> (cases hv; rfl)
    · rcases r with _ | o
      · cases hv
      · cases hv; rfl

theorem evalIntegerInfix_resOk (op : GoString) (a b : Int) (v : GoVal)
    (hv : evalIntegerInfixExpression op a b = .ok v) : resOk v = true := by
  unfold evalIntegerInfixExpression at hv
  repeat' split at hv
  all_goals first
    | (cases hv; rfl)
    | cases hv

theorem evalStringInfix_resOk (op : GoString) (a b : GoString) (v : GoVal)
    (hv : evalStringInfixExpression op a b = .ok v) : resOk v = true := by
  unfold evalStringInfixExpression at hv
  repeat' split at hv
  all_goals (cases hv; rfl)

set_option maxHeartbeats 1000000 in
theorem evalInfix_resOk (op : GoString) (l r : GoVal) (v : GoVal)
    (hv : evalInfixExpression op l r = .ok v) : resOk v = true := by
  rcases l with _ | lo
  · simp [evalInfixExpression] at hv
  rcases r with _ | ro
  · cases lo <;>
      simp only [evalInfixExpression, Object.type] at hv
    all_goals try simp at hv
    all_goals
      (repeat' split at hv) <;>
        first
          | (cases hv; rfl)
          | cases hv
          | simp_all
  · cases lo <;> cases ro <;>
      simp only [evalInfixExpression, Object.type] at hv
    all_goals try simp at hv
    all_goals first
      | exact evalIntegerInfix_resOk op _ _ v hv
      | exact evalStringInfix_resOk op _ _ v hv
      | ((repeat' split at hv) <;>
          first
            | (cases hv; rfl)
            | cases hv
            | simp_all)

theorem evalIndex_resOk (l i : GoVal) (v : GoVal)
    (hl : goValErrorFree l = true) (hi : goValErrorFree i = true)
    (hv : evalIndexExpression l i = .ok v) : resOk v = true := by
  rcases l with _ | lo
  · simp [evalIndexExpression] at hv
  cases lo <;> simp only [evalIndexExpression] at hv <;>
    try (cases hv; rfl)
  case Array aid elements =>
    rcases i with _ | io
    · cases hv
    cases io <;> try (cases hv; rfl)
    rename_i idx
    cases hv
    unfold evalArrayIndexExpression
    split
    · rfl
    · cases hget : elements[idx.toNat]? with
      | none => simp [resOk, goValErrorFree]
      | some w =>
        have hw : goValErrorFree w = true :=
          getElem_goValList_errorFree elements idx.toNat w
            (by simpa [goValErrorFree, Object.errorFree] using hl) hget
        simp [resOk, hw]
  case Hash hid pairs =>
    rcases i with _ | io
    · simp [evalHashIndexExpression] at hv
    cases hko : hashKeyOf io with
    | none =>
      simp only [evalHashIndexExpression, hko] at hv
      cases hv; rfl
    | some hk =>
      cases hget : alistGet pairs hk with
      | none =>
        simp only [evalHashIndexExpression, hko, hget] at hv
        cases hv; rfl
      | some p =>
        simp only [evalHashIndexExpression, hko, hget] at hv
        cases hv
        have := alistGet_hashPairs_errorFree pairs hk p
          (by simpa [goValErrorFree, Object.errorFree] using hl) hget
        simp [resOk, this.2]

theorem unwrap_resOk (r : GoVal) (hr : resOk r = true) :
    resOk (unwrapReturnValue r) = true := by
  rcases r with _ | o
  · exact hr
  · cases o <;> try exact hr
    rename_i v
    simp only [unwrapReturnValue]
    simp only [resOk, isError, goValErrorFree, Object.errorFree, Bool.false_or] at hr
    simp [resOk, hr]

theorem resOk_of_notError (r : GoVal) (hr : resOk r = true)
    (hne : isError r = false) : goValErrorFree r = true := by
  simp only [resOk, hne, Bool.false_or] at hr
  exact hr

theorem Res.bind_eq_ok {α β : Type} {x : Res α} {f : α → Res β} {b : β}
    (hx : Res.bind x f = .ok b) : ∃ a, x = .ok a ∧ f a = .ok b := by
  cases x with
  | timeout => simp [Res.bind] at hx
  | panicked => simp [Res.bind] at hx
  | ok a => exact ⟨a, rfl, hx⟩

theorem goValListErrorFree_append (l1 l2 : List GoVal) :
    goValListErrorFree (l1 ++ l2) = (goValListErrorFree l1 && goValListErrorFree l2) := by
  induction l1 with
  | nil => simp [goValListErrorFree]
  | cons a rest ih => simp [goValListErrorFree, ih, Bool.and_assoc]

theorem hashKeyOf_errorFree (ko : Object) (hk : HashKey)
    (h : hashKeyOf ko = some hk) : Object.errorFree ko = true := by
  cases ko <;> simp_all [hashKeyOf, Object.errorFree]

theorem resOk_error (m : GoString) : resOk (some (.Error m)) = true := rfl

theorem resOk_none : resOk (none : GoVal) = true := rfl

set_option maxHeartbeats 2000000 in
/-- C3 (amended): the Error half of the signal-variant invariant.  For every
evaluation from an Error-free heap that produces a result: the final heap is
still Error-free (no Error value is ever stored into an Environment binding),
every produced value is either a top-level Error signal or contains no Error
anywhere inside (so no Error sits inside an Array element or Hash entry), and
evaluation is unchanged when every builtin is replaced by one that deviates on
argument lists containing an Error (`guardB`) — no builtin is ever passed an
Error argument.  The ReturnValue half of the claimed invariant is false on
this code (see the counterexample): an if-expression in value position leaks
a ReturnValue into environment bindings, Arrays, Hashes and Builtin
arguments, so only the Error half can be (and is) proved. -/
theorem claim_C3_error_signal_invariant (bs : Builtins) (hbs : BuiltinsOk bs) : ∀ fuel : Nat,
    (∀ (e : Expr) (env : Nat) (h : Heap) (n : Nat) (r : GoVal) (h' : Heap) (n' : Nat),
        heapErrorFree h = true → evalExpr bs fuel e env h n = .ok (r, h', n') →
        heapErrorFree h' = true ∧ resOk r = true ∧
          evalExpr (guardB bs) fuel e env h n = .ok (r, h', n')) ∧
    (∀ (s : Stmt) (env : Nat) (h : Heap) (n : Nat) (r : GoVal) (h' : Heap) (n' : Nat),
        heapErrorFree h = true → evalStmt bs fuel s env h n = .ok (r, h', n') →
        heapErrorFree h' = true ∧ resOk r = true ∧
          evalStmt (guardB bs) fuel s env h n = .ok (r, h', n')) ∧
    (∀ (stmts : List Stmt) (env : Nat) (h : Heap) (n : Nat) (r : GoVal)
        (h' : Heap) (n' : Nat),
        heapErrorFree h = true → evalProgram bs fuel stmts env h n = .ok (r, h', n') →
        heapErrorFree h' = true ∧ resOk r = true ∧
          evalProgram (guardB bs) fuel stmts env h n = .ok (r, h', n')) ∧
    (∀ (stmts : List Stmt) (env : Nat) (h : Heap) (n : Nat) (r : GoVal)
        (h' : Heap) (n' : Nat),
        heapErrorFree h = true → evalBlock bs fuel stmts env h n = .ok (r, h', n') →
        heapErrorFree h' = true ∧ resOk r = true ∧
          evalBlock (guardB bs) fuel stmts env h n = .ok (r, h', n')) ∧
    (∀ (es : List Expr) (acc : List GoVal) (env : Nat) (h : Heap) (n : Nat)
        (vs : List GoVal) (h' : Heap) (n' : Nat),
        heapErrorFree h = true → goValListErrorFree acc = true →
        evalExpressions bs fuel es acc env h n = .ok (vs, h', n') →
        heapErrorFree h' = true ∧ exprsResOk vs = true ∧
          evalExpressions (guardB bs) fuel es acc env h n = .ok (vs, h', n')) ∧
    (∀ (fn : GoVal) (args : List GoVal) (h : Heap) (n : Nat) (r : GoVal)
        (h' : Heap) (n' : Nat),
        heapErrorFree h = true → goValErrorFree fn = true →
        goValListErrorFree args = true →
        applyFunction bs fuel fn args h n = .ok (r, h', n') →
        heapErrorFree h' = true ∧ resOk r = true ∧
          applyFunction (guardB bs) fuel fn args h n = .ok (r, h', n')) ∧
    (∀ (pairs : List (Expr × Expr)) (acc : List (HashKey × GoVal × GoVal))
        (hid env : Nat) (h : Heap) (n : Nat) (r : GoVal) (h' : Heap) (n' : Nat),
        heapErrorFree h = true → hashPairsErrorFree acc = true →
        evalHashPairs bs fuel pairs acc hid env h n = .ok (r, h', n') →
        heapErrorFree h' = true ∧ resOk r = true ∧
          evalHashPairs (guardB bs) fuel pairs acc hid env h n = .ok (r, h', n')) := by
  intro fuel
  induction fuel with
  | zero =>
    refine ⟨?_, ?_, ?_, ?_, ?_, ?_, ?_⟩
    · intro e env h n r h' n' _ he; simp [evalExpr] at he
    · intro s env h n r h' n' _ he; simp [evalStmt] at he
    · intro stmts env h n r h' n' _ he; simp [evalProgram] at he
    · intro stmts env h n r h' n' _ he; simp [evalBlock] at he
    · intro es acc env h n vs h' n' _ _ he; simp [evalExpressions] at he
    · intro fn args h n r h' n' _ _ _ he; simp [applyFunction] at he
    · intro pairs acc hid env h n r h' n' _ _ he; simp [evalHashPairs] at he
  | succ fuel ih =>
    obtain ⟨ihE, ihS, ihP, ihB, ihX, ihA, ihH⟩ := ih
    refine ⟨?_, ?_, ?_, ?_, ?_, ?_, ?_⟩
    · -- expressions
      intro e env h n r h' n' hh he
      cases e with
      | IntegerLiteral n =>
        simp only [evalExpr] at he ⊢
        cases he
        exact ⟨hh, rfl, rfl⟩
      | BooleanLiteral b =>
        simp only [evalExpr] at he ⊢
        cases he
        exact ⟨hh, rfl, rfl⟩
      | StringLiteral s =>
        simp only [evalExpr] at he ⊢
        cases he
        exact ⟨hh, rfl, rfl⟩
      | PrefixExpression op rexp =>
        simp only [evalExpr] at he ⊢
        obtain ⟨⟨rv, h1, n1⟩, hre, hrest⟩ := Res.bind_eq_ok he
        try dsimp only at hrest
        obtain ⟨hh1, hrok, hrg⟩ := ihE rexp env h n rv h1 n1 hh hre
        rw [hrg, Res.bind_ok]
        try dsimp only
        by_cases herr : isError rv = true
        · rw [if_pos herr] at hrest ⊢
          cases hrest
          exact ⟨hh1, by simp [resOk, herr], rfl⟩
        · rw [if_neg herr] at hrest ⊢
          obtain ⟨pv, hpe, hfin⟩ := Res.bind_eq_ok hrest
          try dsimp only at hfin
          cases hfin
          exact ⟨hh1, evalPrefix_resOk op rv r hpe, by rw [hpe, Res.bind_ok]⟩
      | InfixExpression op lexp rexp =>
        simp only [evalExpr] at he ⊢
        obtain ⟨⟨lv, h1, n1⟩, hle, hrest⟩ := Res.bind_eq_ok he
        try dsimp only at hrest
        obtain ⟨hh1, hlok, hlg⟩ := ihE lexp env h n lv h1 n1 hh hle
        rw [hlg, Res.bind_ok]
        try dsimp only
        by_cases herrl : isError lv = true
        · rw [if_pos herrl] at hrest ⊢
          cases hrest
          exact ⟨hh1, by simp [resOk, herrl], rfl⟩
        · rw [if_neg herrl] at hrest ⊢
          obtain ⟨⟨rv, h2, n2⟩, hre, hrest2⟩ := Res.bind_eq_ok hrest
          try dsimp only at hrest2
          obtain ⟨hh2, hrok, hrg⟩ := ihE rexp env h1 n1 rv h2 n2 hh1 hre
          rw [hrg, Res.bind_ok]
          try dsimp only
          by_cases herrr : isError rv = true
          · rw [if_pos herrr] at hrest2 ⊢
            cases hrest2
            exact ⟨hh2, by simp [resOk, herrr], rfl⟩
          · rw [if_neg herrr] at hrest2 ⊢
            obtain ⟨iv, hie, hfin⟩ := Res.bind_eq_ok hrest2
            try dsimp only at hfin
            cases hfin
            exact ⟨hh2, evalInfix_resOk op lv rv r hie, by rw [hie, Res.bind_ok]⟩
      | IfExpression cond conseq alt =>
        simp only [evalExpr] at he ⊢
        obtain ⟨⟨cv, h1, n1⟩, hce, hrest⟩ := Res.bind_eq_ok he
        try dsimp only at hrest
        obtain ⟨hh1, hcok, hcg⟩ := ihE cond env h n cv h1 n1 hh hce
        rw [hcg, Res.bind_ok]
        try dsimp only
        by_cases herr : isError cv = true
        · rw [if_pos herr] at hrest ⊢
          cases hrest
          exact ⟨hh1, by simp [resOk, herr], rfl⟩
        · rw [if_neg herr] at hrest ⊢
          by_cases htr : isTruthy cv = true
          · rw [if_pos htr] at hrest ⊢
            exact ihB conseq env h1 n1 r h' n' hh1 hrest
          · rw [if_neg htr] at hrest ⊢
            cases alt with
            | some altB =>
              try dsimp only at hrest ⊢
              exact ihB altB env h1 n1 r h' n' hh1 hrest
            | none =>
              try dsimp only at hrest ⊢
              cases hrest
              exact ⟨hh1, rfl, rfl⟩
      | Identifier name =>
        simp only [evalExpr] at he ⊢
        cases hg : Environment.Get h env name with
        | some v =>
          simp only [hg] at he ⊢
          cases he
          exact ⟨hh, by simp [resOk, envGet_errorFree h env name _ hh hg], rfl⟩
        | none =>
          simp only [hg] at he ⊢
          cases hbv : bs name with
          | some f =>
            simp only [hbv] at he
            cases he
            exact ⟨hh, rfl, by simp [guardB, hbv]⟩
          | none =>
            simp only [hbv] at he
            cases he
            exact ⟨hh, rfl, by simp [guardB, hbv]⟩
      | FunctionLiteral params body =>
        simp only [evalExpr] at he ⊢
        cases he
        exact ⟨hh, rfl, rfl⟩
      | CallExpression f argExprs =>
        simp only [evalExpr] at he ⊢
        obtain ⟨⟨fv, h1, n1⟩, hfe, hrest⟩ := Res.bind_eq_ok he
        try dsimp only at hrest
        obtain ⟨hh1, hfok, hfg⟩ := ihE f env h n fv h1 n1 hh hfe
        rw [hfg, Res.bind_ok]
        try dsimp only
        by_cases herrf : isError fv = true
        · rw [if_pos herrf] at hrest ⊢
          cases hrest
          exact ⟨hh1, by simp [resOk, herrf], rfl⟩
        · rw [if_neg herrf] at hrest ⊢
          obtain ⟨⟨vs, h2, n2⟩, hxs, hrest2⟩ := Res.bind_eq_ok hrest
          try dsimp only at hrest2
          obtain ⟨hh2, hvsok, hxg⟩ := ihX argExprs [] env h1 n1 vs h2 n2 hh1 rfl hxs
          rw [hxg, Res.bind_ok]
          try dsimp only
          have hfvF := resOk_of_notError fv hfok (by simpa using herrf)
          cases vs with
          | nil =>
            try dsimp only at hrest2 ⊢
            exact ihA fv [] h2 n2 r h' n' hh2 hfvF rfl hrest2
          | cons a tail =>
            cases tail with
            | nil =>
              try dsimp only at hrest2 ⊢
              by_cases herra : isError a = true
              · rw [if_pos herra] at hrest2 ⊢
                cases hrest2
                exact ⟨hh2, by simp [resOk, herra], rfl⟩
              · rw [if_neg herra] at hrest2 ⊢
                have haF : goValListErrorFree [a] = true := by
                  have hd : goValListErrorFree [a] = true ∨ isError a = true := by
                    simpa [exprsResOk, Bool.or_eq_true] using hvsok
                  rcases hd with hc | hc
                  · exact hc
                  · exact absurd hc herra
                exact ihA fv [a] h2 n2 r h' n' hh2 hfvF haF hrest2
            | cons b tail2 =>
              try dsimp only at hrest2 ⊢
              have hlF : goValListErrorFree (a :: b :: tail2) = true := by
                simpa [exprsResOk] using hvsok
              exact ihA fv (a :: b :: tail2) h2 n2 r h' n' hh2 hfvF hlF hrest2
      | ArrayLiteral elems =>
        simp only [evalExpr] at he ⊢
        obtain ⟨⟨vs, h1, n1⟩, hxs, hrest⟩ := Res.bind_eq_ok he
        try dsimp only at hrest
        obtain ⟨hh1, hvsok, hxg⟩ := ihX elems [] env h n vs h1 n1 hh rfl hxs
        rw [hxg, Res.bind_ok]
        try dsimp only
        cases vs with
        | nil =>
          try dsimp only at hrest ⊢
          cases hrest
          exact ⟨hh1, rfl, rfl⟩
        | cons a tail =>
          cases tail with
          | nil =>
            try dsimp only at hrest ⊢
            by_cases herra : isError a = true
            · rw [if_pos herra] at hrest ⊢
              cases hrest
              exact ⟨hh1, by simp [resOk, herra], rfl⟩
            · rw [if_neg herra] at hrest ⊢
              cases hrest
              have haF : goValListErrorFree [a] = true := by
                have hd : goValListErrorFree [a] = true ∨ isError a = true := by
                  simpa [exprsResOk, Bool.or_eq_true] using hvsok
                rcases hd with hc | hc
                · exact hc
                · exact absurd hc herra
              exact ⟨hh1,
                by simp [resOk, isError, goValErrorFree, Object.errorFree, haF], rfl⟩
          | cons b tail2 =>
            try dsimp only at hrest ⊢
            cases hrest
            have hlF : goValListErrorFree (a :: b :: tail2) = true := by
              simpa [exprsResOk] using hvsok
            exact ⟨hh1,
              by simp [resOk, isError, goValErrorFree, Object.errorFree, hlF], rfl⟩
      | IndexExpression lexp iexp =>
        simp only [evalExpr] at he ⊢
        obtain ⟨⟨lv, h1, n1⟩, hle, hrest⟩ := Res.bind_eq_ok he
        try dsimp only at hrest
        obtain ⟨hh1, hlok, hlg⟩ := ihE lexp env h n lv h1 n1 hh hle
        rw [hlg, Res.bind_ok]
        try dsimp only
        by_cases herrl : isError lv = true
        · rw [if_pos herrl] at hrest ⊢
          cases hrest
          exact ⟨hh1, by simp [resOk, herrl], rfl⟩
        · rw [if_neg herrl] at hrest ⊢
          obtain ⟨⟨iv, h2, n2⟩, hie, hrest2⟩ := Res.bind_eq_ok hrest
          try dsimp only at hrest2
          obtain ⟨hh2, hiok, hig⟩ := ihE iexp env h1 n1 iv h2 n2 hh1 hie
          rw [hig, Res.bind_ok]
          try dsimp only
          by_cases herri : isError iv = true
          · rw [if_pos herri] at hrest2 ⊢
            cases hrest2
            exact ⟨hh2, by simp [resOk, herri], rfl⟩
          · rw [if_neg herri] at hrest2 ⊢
            obtain ⟨xv, hxe, hfin⟩ := Res.bind_eq_ok hrest2
            try dsimp only at hfin
            cases hfin
            have hlF := resOk_of_notError lv hlok (by simpa using herrl)
            have hiF := resOk_of_notError iv hiok (by simpa using herri)
            exact ⟨hh2, evalIndex_resOk lv iv r hlF hiF hxe, by rw [hxe, Res.bind_ok]⟩
      | HashLiteral pairs =>
        simp only [evalExpr] at he ⊢
        exact ihH pairs [] n env h (n + 1) r h' n' hh rfl he
    · -- statements
      intro s env h n r h' n' hh he
      cases s with
      | ExpressionStatement e =>
        simp only [evalStmt] at he ⊢
        exact ihE e env h n r h' n' hh he
      | ReturnStatement e =>
        simp only [evalStmt] at he ⊢
        obtain ⟨⟨v, h1, n1⟩, hve, hrest⟩ := Res.bind_eq_ok he
        dsimp only at hrest
        obtain ⟨hh1, hvok, hvg⟩ := ihE e env h n v h1 n1 hh hve
        rw [hvg, Res.bind_ok]
        dsimp only
        by_cases herr : isError v = true
        · rw [if_pos herr] at hrest ⊢
          cases hrest
          exact ⟨hh1, by simp [resOk, herr], rfl⟩
        · rw [if_neg herr] at hrest ⊢
          cases hrest
          have hvf := resOk_of_notError v hvok (by simpa using herr)
          exact ⟨hh1, by simp [resOk, isError, goValErrorFree, Object.errorFree, hvf], rfl⟩
      | LetStatement name e =>
        simp only [evalStmt] at he ⊢
        obtain ⟨⟨v, h1, n1⟩, hve, hrest⟩ := Res.bind_eq_ok he
        dsimp only at hrest
        obtain ⟨hh1, hvok, hvg⟩ := ihE e env h n v h1 n1 hh hve
        rw [hvg, Res.bind_ok]
        dsimp only
        by_cases herr : isError v = true
        · rw [if_pos herr] at hrest ⊢
          cases hrest
          exact ⟨hh1, by simp [resOk, herr], rfl⟩
        · rw [if_neg herr] at hrest ⊢
          cases hrest
          exact ⟨envSet_errorFree h1 env name v hh1
            (resOk_of_notError v hvok (by simpa using herr)), rfl, rfl⟩
    · -- program
      intro stmts env h n r h' n' hh he
      cases stmts with
      | nil =>
        simp only [evalProgram] at he ⊢
        cases he
        exact ⟨hh, rfl, rfl⟩
      | cons s rest =>
        simp only [evalProgram] at he ⊢
        obtain ⟨⟨r1, h1, n1⟩, hS, hrest⟩ := Res.bind_eq_ok he
        dsimp only at hrest
        obtain ⟨hh1, hr1ok, hgS⟩ := ihS s env h n r1 h1 n1 hh hS
        rw [hgS, Res.bind_ok]
        dsimp only
        split at hrest
        · -- ReturnValue value
          cases hrest
          refine ⟨hh1, ?_, by simp⟩
          simp only [resOk, isError, goValErrorFree, Object.errorFree,
            Bool.false_or] at hr1ok
          simp [resOk, hr1ok]
        · -- Error m
          cases hrest
          exact ⟨hh1, rfl, by simp⟩
        · rename_i hne1 hne2
          cases rest with
          | nil =>
            dsimp only at hrest
            cases hrest
            refine ⟨hh1, hr1ok, ?_⟩
            rcases r with _ | o
            · rfl
            · cases o <;> first
                | (exact absurd rfl (hne1 _))
                | (exact absurd rfl (hne2 _))
                | rfl
          | cons s2 rest2 =>
            dsimp only at hrest
            obtain ⟨hh2, hrok2, hg2⟩ := ihP (s2 :: rest2) env h1 n1 r h' n' hh1 hrest
            refine ⟨hh2, hrok2, ?_⟩
            rcases r1 with _ | o
            · exact hg2
            · cases o <;> first
                | (exact absurd rfl (hne1 _))
                | (exact absurd rfl (hne2 _))
                | (exact hg2)
    · -- block
      intro stmts env h n r h' n' hh he
      cases stmts with
      | nil =>
        simp only [evalBlock] at he ⊢
        cases he
        exact ⟨hh, rfl, rfl⟩
      | cons s rest =>
        simp only [evalBlock] at he ⊢
        obtain ⟨⟨r1, h1, n1⟩, hS, hrest⟩ := Res.bind_eq_ok he
        dsimp only at hrest
        obtain ⟨hh1, hr1ok, hgS⟩ := ihS s env h n r1 h1 n1 hh hS
        rw [hgS, Res.bind_ok]
        dsimp only
        by_cases hsig : isReturnOrError r1 = true
        · rw [if_pos hsig] at hrest ⊢
          cases hrest
          exact ⟨hh1, hr1ok, rfl⟩
        · rw [if_neg hsig] at hrest ⊢
          cases rest with
          | nil =>
            dsimp only at hrest ⊢
            cases hrest
            exact ⟨hh1, hr1ok, rfl⟩
          | cons s2 rest2 =>
            dsimp only at hrest ⊢
            obtain ⟨hh2, hrok2, hg2⟩ := ihB (s2 :: rest2) env h1 n1 r h' n' hh1 hrest
            exact ⟨hh2, hrok2, hg2⟩
    · -- expressions (argument/element lists)
      intro es acc env h n vs h' n' hh hacc he
      cases es with
      | nil =>
        simp only [evalExpressions] at he ⊢
        cases he
        exact ⟨hh, by simp [exprsResOk, hacc], rfl⟩
      | cons e rest =>
        simp only [evalExpressions] at he ⊢
        obtain ⟨⟨v, h1, n1⟩, hve, hrest⟩ := Res.bind_eq_ok he
        dsimp only at hrest
        obtain ⟨hh1, hvok, hvg⟩ := ihE e env h n v h1 n1 hh hve
        rw [hvg, Res.bind_ok]
        dsimp only
        by_cases herr : isError v = true
        · rw [if_pos herr] at hrest ⊢
          cases hrest
          exact ⟨hh1, by simp [exprsResOk, herr], rfl⟩
        · rw [if_neg herr] at hrest ⊢
          have hvf := resOk_of_notError v hvok (by simpa using herr)
          have haccv : goValListErrorFree (acc ++ [v]) = true := by
            simp [goValListErrorFree_append, hacc, goValListErrorFree, hvf]
          obtain ⟨hh2, hvsok, hg2⟩ := ihX rest (acc ++ [v]) env h1 n1 vs h' n' hh1 haccv hrest
          exact ⟨hh2, hvsok, hg2⟩
    · -- applyFunction
      intro fn args h n r h' n' hh hfn hargs he
      rcases fn with _ | o
      · simp [applyFunction] at he
      cases o
      case Function fid params body envRef =>
        simp only [applyFunction] at he ⊢
        obtain ⟨h2, hsp, hrest⟩ := Res.bind_eq_ok he
        try dsimp only at hrest
        obtain ⟨⟨r3, h3, n3⟩, hblock, hfin⟩ := Res.bind_eq_ok hrest
        have hh1 : heapErrorFree (NewEnclosedEnvironment h envRef).1 = true := by
          simpa [NewEnclosedEnvironment] using heapAppend_frame_errorFree h envRef hh
        have hh2 := setParams_errorFree params args _ _ h2 hh1 hargs hsp
        obtain ⟨hh3, hrok, hgB⟩ :=
          ihB body (NewEnclosedEnvironment h envRef).2 h2 n r3 h3 n3 hh2 hblock
        try dsimp only at hfin
        cases hfin
        refine ⟨hh3, unwrap_resOk r3 hrok, ?_⟩
        rw [hsp, Res.bind_ok]
        try dsimp only
        rw [hgB, Res.bind_ok]
      case Builtin name =>
        simp only [applyFunction] at he ⊢
        cases hbsn : bs name with
        | some f =>
          simp only [hbsn] at he
          cases he
          refine ⟨hh, hbs name f hbsn args n hargs, ?_⟩
          simp only [guardB, hbsn, Option.map]
          rw [if_pos hargs]
        | none =>
          simp only [hbsn] at he
          cases he
          exact ⟨hh, rfl, by simp [guardB, hbsn]⟩
      all_goals
        simp only [applyFunction] at he ⊢
      all_goals
        (cases he; exact ⟨hh, rfl, rfl⟩)
    · -- hash literal pairs
      intro pairs acc hid env h n r h' n' hh hacc he
      cases pairs with
      | nil =>
        simp only [evalHashPairs] at he ⊢
        cases he
        exact ⟨hh, by simp [resOk, isError, goValErrorFree, Object.errorFree, hacc], rfl⟩
      | cons kv rest =>
        obtain ⟨k, v⟩ := kv
        simp only [evalHashPairs] at he ⊢
        obtain ⟨⟨kvv, h1, n1⟩, hke, hrest⟩ := Res.bind_eq_ok he
        dsimp only at hrest
        obtain ⟨hh1, hkok, hkg⟩ := ihE k env h n kvv h1 n1 hh hke
        rw [hkg, Res.bind_ok]
        dsimp only
        by_cases herr : isError kvv = true
        · rw [if_pos herr] at hrest ⊢
          cases hrest
          exact ⟨hh1, by simp [resOk, herr], rfl⟩
        · rw [if_neg herr] at hrest ⊢
          rcases kvv with _ | ko
          · cases hrest
          cases hko : hashKeyOf ko with
          | none =>
            simp only [hko] at hrest ⊢
            cases hrest
            exact ⟨hh1, rfl, rfl⟩
          | some hk =>
            simp only [hko] at hrest ⊢
            obtain ⟨⟨vv, h2, n2⟩, hve, hrest2⟩ := Res.bind_eq_ok hrest
            dsimp only at hrest2
            obtain ⟨hh2, hvok, hvg⟩ := ihE v env h1 n1 vv h2 n2 hh1 hve
            rw [hvg, Res.bind_ok]
            dsimp only
            by_cases herr2 : isError vv = true
            · rw [if_pos herr2] at hrest2 ⊢
              cases hrest2
              exact ⟨hh2, by simp [resOk, herr2], rfl⟩
            · rw [if_neg herr2] at hrest2 ⊢
              have hkoF : Object.errorFree ko = true := hashKeyOf_errorFree ko hk hko
              have hvvF := resOk_of_notError vv hvok (by simpa using herr2)
              have haccN : hashPairsErrorFree (alistSet acc hk (some ko, vv)) = true :=
                alistSet_hashPairs_errorFree acc hk (some ko) vv hacc
                  (by simpa [goValErrorFree] using hkoF) hvvF
              exact ihH rest _ hid env h2 n2 r h' n' hh2 haccN hrest2


/-- C3 witness: the invariant theorem applied at a concrete point — the
one-frame heap binding `x` to Integer 5 is Error-free, and evaluating the
program `x;` on it (with the empty registry, trivially well behaved) keeps
the heap Error-free, produces an Error-or-Error-free result, and is unchanged
under the guarded registry. -/
theorem claim_C3_witness :
    heapErrorFree [⟨[("x", some (.Integer 5))], none⟩] = true ∧
    resOk (some (.Integer 5)) = true ∧
    evalProgram (guardB noBuiltins) 10 [.ExpressionStatement (.Identifier "x")] 0
        [⟨[("x", some (.Integer 5))], none⟩] 0 =
      .ok (some (.Integer 5), [⟨[("x", some (.Integer 5))], none⟩], 0) := by
  have hbs : BuiltinsOk noBuiltins := by
    intro name f hf
    simp [noBuiltins] at hf
  obtain ⟨a, b, c⟩ :=
    (claim_C3_error_signal_invariant noBuiltins hbs 10).2.2.1
      [.ExpressionStatement (.Identifier "x")] 0
      [⟨[("x", some (.Integer 5))], none⟩] 0 (some (.Integer 5))
      [⟨[("x", some (.Integer 5))], none⟩] 0 rfl rfl
  exact ⟨a, b, c⟩

end Monkey
